import Mathlib

/-
Shallow embedding of the disk/slot reconciliation core of the Azure VM
backend (nixops/backends/azure_vm.py).

Modelling conventions:
- Python strings are Lean String values; the two regular expressions of the
  source are implemented as executable functions on the character list.
- Python dicts keyed by strings are association lists in insertion order;
  dict lookup is first match by key, dict assignment replaces the entry in
  place, dict pop removes it.  Iteration over a dict snapshot is a fold over
  the entry list read at loop entry, matching the attr_property json getter
  which returns a fresh dict on each access.
- Remote calls are not performed: mutating calls are recorded in order in a
  list of operations, and read-only remote data (the VM snapshot, blob
  existence, the live public IP, confirmation answers, generated random
  strings) is supplied by an environment record.
- Raised exceptions become Except.error values carrying the error kind and
  the identifying payload of the message.
- The newline edge cases of the Python regex anchors are not modelled.
-/

namespace AzureVM

/-! ## Slot addressing (device_name_to_lun / lun_to_device_name) -/

/-- The constant stem of a data-disk device path. -/
def lunPathStem : List Char := "/dev/disk/by-lun/".toList

/-- Numeric value of a decimal digit string, as Python int() on the digits
matched by the regex group. -/
def digitsVal (l : List Char) : Nat :=
  l.foldl (fun a c => a * 10 + (c.toNat - 48)) 0

/-- Whether the regex by-lun pattern matches the whole device string:
the stem followed by one or more decimal digits. -/
def lunPathMatches (device : String) : Bool :=
  let l := device.toList
  lunPathStem.isPrefixOf l && !(l.drop 17).isEmpty
    && (l.drop 17).all (fun c => c.isDigit)

/-- device_name_to_lun: parse a device path of the form stem plus digits,
returning none when the pattern does not match or the value exceeds 31. -/
def device_name_to_lun (device : String) : Option Nat :=
  if lunPathMatches device then
    if digitsVal (device.toList.drop 17) > 31 then none
    else some (digitsVal (device.toList.drop 17))
  else none

/-- lun_to_device_name: the stem followed by the decimal rendering of the
slot number. -/
def lun_to_device_name (lun : Nat) : String :=
  "/dev/disk/by-lun/" ++ toString lun

/-! ## Blob URL parsing (parse_blob_url) -/

structure BlobRef where
  storage : String
  container : String
  blobName : String
deriving DecidableEq, Repr

/-- Split a character list at the first occurrence of a character, returning
the parts before and after it. -/
def splitAtChar (c : Char) : List Char → Option (List Char × List Char)
  | [] => none
  | x :: xs =>
    if x = c then some ([], xs)
    else (splitAtChar c xs).map (fun p => (x :: p.1, p.2))

/-- parse_blob_url: scheme://A.B/C/D with A the storage account (nonempty,
no dot or slash), B the rest of the host (nonempty, no slash), C the
container (nonempty, no slash) and D the blob name (nonempty). -/
def parse_blob_url (blob : String) : Option BlobRef :=
  let l := blob.toList
  let afterScheme :=
    if "https://".toList.isPrefixOf l then some (l.drop 8)
    else if "http://".toList.isPrefixOf l then some (l.drop 7)
    else none
  match afterScheme with
  | none => none
  | some r =>
    match splitAtChar '.' r with
    | none => none
    | some (a, r1) =>
      if a.isEmpty || a.contains '/' then none
      else
        match splitAtChar '/' r1 with
        | none => none
        | some (b, r2) =>
          if b.isEmpty then none
          else
            match splitAtChar '/' r2 with
            | none => none
            | some (c, d) =>
              if c.isEmpty || d.isEmpty then none
              else some ⟨String.mk a, String.mk c, String.mk d⟩

/-! ## Disk records and dict model -/

/-- One per-disk state entry (a Python dict in the source; the needs_attach
key defaults to false when absent, so it is a plain Bool field here). -/
structure DiskRecord where
  name : String
  device : String
  media_link : String
  size : Option Nat
  is_ephemeral : Bool
  host_caching : String
  encrypt : Bool
  passphrase : String
  needs_attach : Bool
deriving DecidableEq, Repr

/-- Python dicts keyed by strings, in insertion order. -/
abbrev AList (α : Type) : Type := List (String × α)

/-- Dict lookup: first entry with the given key. -/
def alFind {α : Type} (m : AList α) (k : String) : Option α :=
  match m with
  | [] => none
  | e :: rest => if e.1 = k then some e.2 else alFind rest k

/-- Dict assignment: replace the entry in place, or append when absent. -/
def alSet {α : Type} (m : AList α) (k : String) (v : α) : AList α :=
  if (List.any m (fun e => e.1 = k)) then
    List.map (fun e => if e.1 = k then (k, v) else e) m
  else m ++ [(k, v)]

/-- Dict pop with default: drop every entry with the given key. -/
def alDrop {α : Type} : AList α → String → AList α
  | [], _ => []
  | e :: rest, k => if e.1 = k then alDrop rest k else e :: alDrop rest k

/-- update_block_device_mapping / update_generated_encryption_keys:
assignment for a value, pop for none. -/
def alUpdate {α : Type} (m : AList α) (k : String) (v : Option α) : AList α :=
  match v with
  | none => alDrop m k
  | some d => alSet m k d

/-- Well-formedness of a dict value: keys are distinct (always true of a
Python dict, stated explicitly on the list model). -/
def alNodup {α : Type} (m : AList α) : Prop :=
  (List.map Prod.fst m).Nodup

/-- defn_find_root_disk: key of the first entry whose device is the root
path. -/
def defn_find_root_disk (m : AList DiskRecord) : Option String :=
  (List.find? (fun e => e.2.device == "/dev/sda") m).map Prod.fst

/-- find_root_disk: key of the first entry whose device is the root path and
which is actually attached. -/
def find_root_disk (m : AList DiskRecord) : Option String :=
  (List.find? (fun e => e.2.device == "/dev/sda" && !e.2.needs_attach) m).map Prod.fst

/-! ## Parsing a desired spec (AzureDefinition) -/

/-- The raw option values of one blockDeviceMapping attribute, before
validation.  The device is the attribute name in the XML tree. -/
structure RawDisk where
  name : String
  device : String
  media_link : Option String
  size : Option Nat
  is_ephemeral : Bool
  host_caching : String
  encrypt : Bool
  passphrase : String
deriving DecidableEq, Repr

inductive ParseErr where
  | missingMediaLink (disk_name : String)
  | malformedBlobUrl (url : String)
  | insecureBlobUrl (url : String)
  | wrongStorage (url : String)
  | duplicateUrls
  | invalidDevice
  | noRootDisk
deriving DecidableEq, Repr

/-- The validated desired machine spec. -/
structure AzureDefinition where
  machine_name : String
  size : String
  location : String
  storage : String
  virtual_network : String
  resource_group : String
  root_disk_image_url : String
  obtain_ip : Bool
  availability_set : String
  block_device_mapping : AList DiskRecord
deriving DecidableEq, Repr

/-- The raw inputs of AzureDefinition construction that the disk validation
reads. -/
structure DefinitionInput where
  machine_name : String
  size : String
  location : String
  storage : String
  virtual_network : String
  resource_group : String
  root_disk_image_url : String
  base_ephemeral_disk_url : Option String
  obtain_ip : Bool
  availability_set : String
  devices : List RawDisk
deriving DecidableEq, Repr

/-- An empty string is falsy in Python, like a missing option value. -/
def nonEmptyOpt (s : Option String) : Option String :=
  match s with
  | none => none
  | some v => if v.isEmpty then none else some v

/-- parse_block_device: default the media link from the base ephemeral URL,
then validate the blob URL (well-formed, https, owned storage account). -/
def parse_block_device (inp : DefinitionInput) (raw : RawDisk) :
    Except ParseErr DiskRecord :=
  let media_link :=
    match nonEmptyOpt raw.media_link with
    | some v => some v
    | none =>
      match nonEmptyOpt inp.base_ephemeral_disk_url with
      | some base => some (base ++ inp.machine_name ++ "-" ++ raw.name ++ ".vhd")
      | none => none
  match media_link with
  | none => .error (.missingMediaLink raw.name)
  | some ml =>
    match parse_blob_url ml with
    | none => .error (.malformedBlobUrl ml)
    | some blob =>
      if "http:".toList.isPrefixOf ml.toList then .error (.insecureBlobUrl ml)
      else if inp.storage ≠ blob.storage then .error (.wrongStorage ml)
      else .ok ⟨raw.name, raw.device, ml, raw.size, raw.is_ephemeral,
                raw.host_caching, raw.encrypt, raw.passphrase, false⟩

/-- The list comprehension over the declared devices: validate each in
order, propagating the first failure. -/
def mapExcept (f : RawDisk → Except ParseErr DiskRecord) :
    List RawDisk → Except ParseErr (List DiskRecord)
  | [] => .ok []
  | x :: xs =>
    match f x with
    | .error e => .error e
    | .ok y =>
      match mapExcept f xs with
      | .error e => .error e
      | .ok ys => .ok (y :: ys)

/-- Build the dict keyed by media link; later entries with the same key win,
as in the Python dict comprehension. -/
def buildDeviceMap (specs : List DiskRecord) : AList DiskRecord :=
  specs.foldl (fun m d => alSet m d.media_link d) []

/-- AzureDefinition construction: validate every disk, reject duplicate blob
URLs, reject unsupported device paths, require a root disk. -/
def parseDefinition (inp : DefinitionInput) : Except ParseErr AzureDefinition :=
  match mapExcept (parse_block_device inp) inp.devices with
  | .error e => .error e
  | .ok specs =>
    let m := buildDeviceMap specs
    let links := specs.map DiskRecord.media_link
    if links.length ≠ links.dedup.length then .error .duplicateUrls
    else if m.any (fun e =>
        e.2.device ≠ "/dev/sda" ∧ device_name_to_lun e.2.device = none) then
      .error .invalidDevice
    else if (defn_find_root_disk m).isNone then .error .noRootDisk
    else .ok ⟨inp.machine_name, inp.size, inp.location, inp.storage,
              inp.virtual_network, inp.resource_group, inp.root_disk_image_url,
              inp.obtain_ip, inp.availability_set, m⟩

/-! ## Live resource snapshot, remote operations, environment, state -/

/-- One attached data disk of the live VM snapshot. -/
structure VMDataDisk where
  name : String
  uri : String
  caching : String
  lun : Nat
  disk_size_gb : Option Nat
deriving DecidableEq, Repr

/-- The live VM resource as returned by the compute API get call. -/
structure VMSnapshot where
  os_name : String
  os_caching : String
  os_uri : String
  data_disks : List VMDataDisk
  vm_size : String
  provisioning_failed : Bool
deriving DecidableEq, Repr

/-- Mutating remote calls, recorded in issue order. -/
inductive Op where
  | updateVM (data_disks : List VMDataDisk)
  | updateVMSize (size : String)
  | createVM (os_uri : String) (data_disks : List VMDataDisk)
  | deleteVM
  | createPublicIP
  | createNIC
  | deleteBlob (media_link : String)
  | deleteNIC
  | deletePublicIP
deriving DecidableEq, Repr

/-- Warning and log lines that the claims observe. -/
inductive Warning where
  | vmFailedState
  | changedProperty (prop : String)
  | fieldChanged (resource field : String)
  | notSupposedAttached (disk_id : String)
  | wrongLun (disk_id : String)
  | unexpectedlyDetached (disk_id : String)
  | unexpectedlyDeleted (disk_id : String)
  | unexpectedDisk (uri : String)
  | destroyedBehindOurBack
  | notSupposedToExist
  | alreadyDestroyed
  | keepingBlob (media_link : String)
  | rootModificationRecreate
deriving DecidableEq, Repr

/-- Raised exceptions, with the identifying payload of the message. -/
inductive Err where
  | immutableProperty (prop : String)
  | lunOccupied (disk_name media_link device occupant_id : String)
  | reattachForbidden (disk_name disk_id old_device new_device : String)
  | nameChangeForbidden (old_name disk_id : String)
  | rebootRequired (prop : String)
  | recreateRequired
  | assertFailed (what : String)
  | deletedBehindBack
  | diskNotFoundOnVM (disk_name disk_id device : String)
  | vmAlreadyExists
  | provisioningFailed
  | storageMismatch (url : String)
  | blobUrlParseFailed (url : String)
  | cannotContinue
deriving DecidableEq, Repr

/-- The confirmation prompts the operator can be asked during destruction. -/
inductive Confirmation where
  | destroyMachine
  | destroyBlob (media_link : String)
  | deleteEncryptionKey (disk_id : String)
  | deleteKeysOnDestroy
  | destroyNotSupposedToExist
deriving DecidableEq, Repr

/-- Read-only remote data and nondeterministic inputs of one reconciliation
run: the settled VM resource, blob existence, the live public IP, the
operator's confirmation answers, generated randomness, and the outcome of
the provisioning poll. -/
structure Env where
  vm : Option VMSnapshot
  blob_exists : String → Bool
  live_public_ip : Option String
  confirm : Confirmation → Bool
  fresh_encryption_key : String → String
  fresh_client_key : String × String
  fresh_host_key : String × String
  nic_exists : Bool
  ip_exists : Bool
  provisioning_failed : Bool

/-- Machine lifecycle states used by the backend. -/
inductive Lifecycle where
  | missing
  | starting
  | up
  | stopping
  | stopped
deriving DecidableEq, Repr

/-- The persisted state record of one machine. -/
structure AzureState where
  machine_name : Option String
  vm_id : Option String
  lifecycle : Lifecycle
  size : Option String
  location : Option String
  storage : Option String
  virtual_network : Option String
  resource_group : Option String
  obtain_ip : Option Bool
  availability_set : Option String
  public_ipv4 : Option String
  public_ip : Option String
  network_interface : Option String
  public_client_key : Option String
  private_client_key : Option String
  public_host_key : Option String
  private_host_key : Option String
  ssh_pinged : Bool
  block_device_mapping : AList DiskRecord
  generated_encryption_keys : AList String
deriving DecidableEq, Repr

instance {ε α : Type} [DecidableEq ε] [DecidableEq α] : DecidableEq (Except ε α) :=
  fun x y =>
    match x, y with
    | .ok a, .ok b =>
      if h : a = b then .isTrue (by rw [h]) else .isFalse (by intro hc; cases hc; exact h rfl)
    | .error a, .error b =>
      if h : a = b then .isTrue (by rw [h]) else .isFalse (by intro hc; cases hc; exact h rfl)
    | .ok _, .error _ => .isFalse (by intro hc; cases hc)
    | .error _, .ok _ => .isFalse (by intro hc; cases hc)

/-! ## Legality checker (_assert_no_impossible_disk_changes) -/

/-- The first test of the checker loop body: the key of the record
occupying the desired disk's slot, when that occupant is a different,
attached identity. -/
def collisionOf (bdm : AList DiskRecord) (d_id : String) (disk : DiskRecord) :
    Option String :=
  match List.find? (fun e => e.2.device == disk.device) bdm,
        device_name_to_lun disk.device with
  | some e, some _ =>
    if e.1 ≠ d_id ∧
        ((alFind bdm e.1).map DiskRecord.needs_attach).getD false = false then
      some e.1
    else none
  | _, _ => none

/-- The second test of the checker loop body: an attached data disk record
may change neither its device nor its name. -/
def attachedGuard (bdm : AList DiskRecord) (d_id : String) (disk : DiskRecord) :
    Except Err Unit :=
  match alFind bdm d_id with
  | none => .ok ()
  | some state_disk =>
    match device_name_to_lun state_disk.device with
    | none => .ok ()
    | some _ =>
      if state_disk.needs_attach then .ok ()
      else if state_disk.device ≠ disk.device then
        .error (.reattachForbidden disk.name d_id state_disk.device disk.device)
      else if state_disk.name ≠ disk.name then
        .error (.nameChangeForbidden state_disk.name d_id)
      else .ok ()

/-- The per-desired-disk body of the checker loop: the target slot must not
be occupied by a different attached disk, and an attached data disk may
change neither its device nor its name. -/
def checkOneDisk (bdm : AList DiskRecord) (d_id : String) (disk : DiskRecord) :
    Except Err Unit :=
  match collisionOf bdm d_id disk with
  | some occ => .error (.lunOccupied disk.name disk.media_link disk.device occ)
  | none => attachedGuard bdm d_id disk

/-- The checker loop over the desired disk map. -/
def checkAllDisks (bdm : AList DiskRecord) : AList DiskRecord → Except Err Unit
  | [] => .ok ()
  | e :: rest =>
    match checkOneDisk bdm e.1 e.2 with
    | .error err => .error err
    | .ok _ => checkAllDisks bdm rest

/-- _assert_no_impossible_disk_changes: a no-op when no VM resource is
recorded, otherwise the loop over the desired map against the record. -/
def assert_no_impossible_disk_changes (s : AzureState) (defn : AzureDefinition) :
    Except Err Unit :=
  if s.vm_id.isNone then .ok ()
  else checkAllDisks s.block_device_mapping defn.block_device_mapping

/-! ## In-place disk parameter updates (_change_existing_disk_parameters) -/

/-- One step of _change_existing_disk_parameters for a desired disk that has
a state record: while attached only the caching mode is pushed remotely via
a whole-VM update; otherwise caching, name and device are rewritten locally;
tool-local bookkeeping fields are always copied. -/
def changeOneDisk (env : Env) (s : AzureState) (ops : List Op)
    (d_id : String) (disk : DiskRecord) :
    Except Err (AzureState × List Op) :=
  match alFind s.block_device_mapping d_id with
  | none => .ok (s, ops)
  | some state_disk =>
    match device_name_to_lun disk.device with
    | none => .ok (s, ops)
    | some _ =>
      let step :
          Except Err (DiskRecord × List Op) :=
        if s.vm_id.isSome ∧ state_disk.needs_attach = false then
          if disk.host_caching ≠ state_disk.host_caching then
            match env.vm with
            | none => .error .deletedBehindBack
            | some vm =>
              match List.find? (fun vd => vd.uri == disk.media_link) vm.data_disks with
              | none => .error (.diskNotFoundOnVM disk.name d_id disk.device)
              | some _ =>
                let newDisks := vm.data_disks.map (fun vd =>
                  if vd.uri == disk.media_link then { vd with caching := disk.host_caching } else vd)
                .ok ({ state_disk with host_caching := disk.host_caching },
                     ops ++ [Op.updateVM newDisks])
          else .ok (state_disk, ops)
        else
          .ok ({ state_disk with host_caching := disk.host_caching,
                                 name := disk.name, device := disk.device }, ops)
      match step with
      | .error e => .error e
      | .ok (sd, ops1) =>
        let sd2 := { sd with encrypt := disk.encrypt, passphrase := disk.passphrase,
                             is_ephemeral := disk.is_ephemeral }
        .ok ({ s with block_device_mapping :=
                 alUpdate s.block_device_mapping d_id (some sd2) }, ops1)

/-- The loop of _change_existing_disk_parameters over the desired map. -/
def changeDisksLoop (env : Env) : AList DiskRecord → AzureState → List Op →
    Except Err (AzureState × List Op)
  | [], s, ops => .ok (s, ops)
  | e :: rest, s, ops =>
    match changeOneDisk env s ops e.1 e.2 with
    | .error err => .error err
    | .ok (s1, ops1) => changeDisksLoop env rest s1 ops1

def change_existing_disk_parameters (env : Env) (defn : AzureDefinition)
    (s : AzureState) : Except Err (AzureState × List Op) :=
  changeDisksLoop env defn.block_device_mapping s []

/-! ## Attaching missing disks (_create_missing_attach_detached) -/

/-- Issue the attach call itself and record the desired disk. -/
def attachIssue (env : Env) (s : AzureState) (ops : List Op)
    (d_id : String) (disk : DiskRecord) (lun : Nat) :
    Except Err (AzureState × List Op) :=
  match env.vm with
  | none => .error .deletedBehindBack
  | some vm =>
    let newDisk : VMDataDisk := ⟨disk.name, disk.media_link, disk.host_caching, lun, disk.size⟩
    .ok ({ s with block_device_mapping :=
             alUpdate s.block_device_mapping d_id (some disk) },
         ops ++ [Op.updateVM (vm.data_disks ++ [newDisk])])

/-- One step: attach a desired data disk that is absent from the record or
flagged needs_attach, appending it to the freshly fetched VM. -/
def attachOneDisk (env : Env) (s : AzureState) (ops : List Op)
    (d_id : String) (disk : DiskRecord) :
    Except Err (AzureState × List Op) :=
  match device_name_to_lun disk.device with
  | none => .ok (s, ops)
  | some lun =>
    match alFind s.block_device_mapping d_id with
    | some st =>
      if st.needs_attach = false then .ok (s, ops)
      else attachIssue env s ops d_id disk lun
    | none => attachIssue env s ops d_id disk lun

def attachDisksLoop (env : Env) : AList DiskRecord → AzureState → List Op →
    Except Err (AzureState × List Op)
  | [], s, ops => .ok (s, ops)
  | e :: rest, s, ops =>
    match attachOneDisk env s ops e.1 e.2 with
    | .error err => .error err
    | .ok (s1, ops1) => attachDisksLoop env rest s1 ops1

def create_missing_attach_detached (env : Env) (defn : AzureDefinition)
    (s : AzureState) : Except Err (AzureState × List Op) :=
  attachDisksLoop env defn.block_device_mapping s []

/-! ## Encryption key generation (_generate_default_encryption_keys) -/

/-- One disk of the key-generation loop: generate a key when the disk is to
be encrypted, has an empty passphrase and no stored key yet. -/
def genKeyStep (env : Env) (keys : AList String) (e : String × DiskRecord) :
    AList String :=
  if e.2.encrypt = true ∧ e.2.passphrase = "" ∧ (alFind keys e.1).isNone = true then
    alUpdate keys e.1 (some (env.fresh_encryption_key e.1))
  else keys

/-- Generate a random key for every encrypted disk that has an empty
passphrase and no previously generated key. -/
def generate_default_encryption_keys (env : Env) (s : AzureState) : AzureState :=
  { s with generated_encryption_keys :=
      s.block_device_mapping.foldl (genKeyStep env) s.generated_encryption_keys }

/-! ## _node_deleted -/

/-- _node_deleted: forget the VM resource, move to the stopped state, flag
every recorded disk as needing attachment and clear the public IP. -/
def node_deleted (s : AzureState) : AzureState :=
  let s1 := { s with vm_id := none, lifecycle := Lifecycle.stopped }
  let bdm := s.block_device_mapping.foldl
    (fun m e => alUpdate m e.1 (some { e.2 with needs_attach := true }))
    s.block_device_mapping
  { s1 with block_device_mapping := bdm, public_ipv4 := none }

/-! ## Drift detector (the check pass of create) -/

/-- Modelled from the spec: warn_if_changed of the generic resource base
class (not among the sources).  Compares a recorded value with the live
value; on a mismatch it warns and, when the divergence is auto-fixable,
returns the live value, otherwise keeps the recorded one.  The Bool is the
warning flag. -/
def warn_if_changed {α : Type} [DecidableEq α] (recorded actual : α)
    (can_fix : Bool) : α × Bool :=
  if recorded = actual then (recorded, false)
  else ((if can_fix then actual else recorded), true)

/-- Modelled from the spec: handle_changed_property of the generic resource
base class (not among the sources).  Auto-heals a safely correctable
divergence: the property is set to the live value, warning on change. -/
def handle_changed_property {α : Type} [DecidableEq α] (recorded live : α) :
    α × Bool :=
  (live, decide (recorded ≠ live))

/-- Accumulator of the per-disk drift loop: the evolving record map, the
in-memory VM object whose data-disk list the loop mutates, and the operation
and warning logs. -/
structure LoopAcc where
  bdm : AList DiskRecord
  vm_disks : List VMDataDisk
  ops : List Op
  warns : List Warning
deriving DecidableEq, Repr

/-- The body of the drift loop for one recorded disk: skip the root disk;
for an attached disk auto-fix caching and size, warn about the name, clear a
stale needs_attach flag, and detach a disk sitting at the wrong LUN; for a
missing disk set needs_attach, and drop the record when the backing blob is
gone too. -/
def driftEntry (env : Env) (acc : LoopAcc) (d_id : String) (disk : DiskRecord) :
    LoopAcc :=
  match device_name_to_lun disk.device with
  | none => acc
  | some disk_lun =>
    match List.find? (fun vd => vd.uri == disk.media_link) acc.vm_disks with
    | some vd =>
      let r1 := warn_if_changed disk.host_caching vd.caching true
      let r2 := warn_if_changed disk.size vd.disk_size_gb true
      let r3 := warn_if_changed disk.name vd.name false
      let d1 := { disk with host_caching := r1.1, size := r2.1 }
      let warnsA := acc.warns
        ++ (if r1.2 then [Warning.fieldChanged d_id "host_caching"] else [])
        ++ (if r2.2 then [Warning.fieldChanged d_id "size"] else [])
        ++ (if r3.2 then [Warning.fieldChanged d_id "name"] else [])
      let d2 := if d1.needs_attach then { d1 with needs_attach := false } else d1
      let warnsB :=
        if d1.needs_attach then warnsA ++ [Warning.notSupposedAttached d_id]
        else warnsA
      if vd.lun ≠ disk_lun then
        { bdm := alUpdate acc.bdm d_id (some { d2 with needs_attach := true }),
          vm_disks := acc.vm_disks.erase vd,
          ops := acc.ops ++ [Op.updateVM (acc.vm_disks.erase vd)],
          warns := warnsB ++ [Warning.wrongLun d_id] }
      else
        { acc with bdm := alUpdate acc.bdm d_id (some d2), warns := warnsB }
    | none =>
      let d1 :=
        if disk.needs_attach = false then { disk with needs_attach := true }
        else disk
      let warnsA :=
        if disk.needs_attach = false then
          acc.warns ++ [Warning.unexpectedlyDetached d_id]
        else acc.warns
      if env.blob_exists disk.media_link then
        { acc with bdm := alUpdate acc.bdm d_id (some d1), warns := warnsA }
      else
        { acc with bdm := alUpdate acc.bdm d_id none,
                   warns := warnsA ++ [Warning.unexpectedlyDeleted d_id] }

/-- The record-map effect of one drift-loop step, as a pure function of the
iterated record and the data-disk list in which it is looked up: none means
the entry is left alone, some v means the entry is updated to v. -/
def driftUpdateOf (env : Env) (v : List VMDataDisk) (disk : DiskRecord) :
    Option (Option DiskRecord) :=
  match device_name_to_lun disk.device with
  | none => none
  | some disk_lun =>
    match List.find? (fun vd => vd.uri == disk.media_link) v with
    | some vd =>
      let d1 := { disk with
        host_caching := (warn_if_changed disk.host_caching vd.caching true).1,
        size := (warn_if_changed disk.size vd.disk_size_gb true).1 }
      let d2 := if d1.needs_attach then { d1 with needs_attach := false } else d1
      some (some (if vd.lun ≠ disk_lun then { d2 with needs_attach := true } else d2))
    | none =>
      let d1 := if disk.needs_attach = false then { disk with needs_attach := true } else disk
      some (if env.blob_exists disk.media_link then some d1 else none)

/-- The in-memory VM effect of one drift-loop step. -/
def driftVMOf (v : List VMDataDisk) (disk : DiskRecord) : List VMDataDisk :=
  match device_name_to_lun disk.device with
  | none => v
  | some disk_lun =>
    match List.find? (fun vd => vd.uri == disk.media_link) v with
    | some vd => if vd.lun ≠ disk_lun then v.erase vd else v
    | none => v

/-- The drift loop over the snapshot of the record map taken at loop entry. -/
def driftLoop (env : Env) (entries : AList DiskRecord) (acc : LoopAcc) : LoopAcc :=
  entries.foldl (fun a e => driftEntry env a e.1 e.2) acc

/-- A record the drift loop leaves as it stands: the step either skips it or
writes back the very same record. -/
def driftFix (env : Env) (v : List VMDataDisk) (d : DiskRecord) : Prop :=
  driftUpdateOf env v d = none ∨ driftUpdateOf env v d = some (some d)

/-- The unexpected-disk sweep: iterate the (by now mutated) live data-disk
list, removing every disk with no record; removing the current element of a
Python list while iterating skips the following element, which is modelled
faithfully here. -/
def scanUnexpected (bdm : AList DiskRecord) :
    List VMDataDisk → List VMDataDisk × List Warning
  | [] => ([], [])
  | vd :: rest =>
    if (List.find? (fun e => e.2.media_link == vd.uri) bdm).isSome then
      let p := scanUnexpected bdm rest
      (vd :: p.1, p.2)
    else
      match rest with
      | [] => ([], [Warning.unexpectedDisk vd.uri])
      | y :: rest2 =>
        let p := scanUnexpected bdm rest2
        (y :: p.1, Warning.unexpectedDisk vd.uri :: p.2)

/-- Result of the drift detector: the mutated state record, the remote
calls issued, and the warnings. -/
structure DriftOut where
  state : AzureState
  ops : List Op
  warnings : List Warning
deriving DecidableEq, Repr

/-- The drift detector: the body of the check pass that runs when the VM
resource exists and is recorded (create, check branch).  Auto-heals size and
public IP, warns about non-fixable root-disk divergences, runs the per-disk
loop, then detaches unexpected disks in one batched update. -/
def driftCheck (env : Env) (vm : VMSnapshot) (s : AzureState) :
    Except Err DriftOut :=
  let w0 : List Warning := if vm.provisioning_failed then [Warning.vmFailedState] else []
  let psz := handle_changed_property s.size (some vm.vm_size)
  let pip := handle_changed_property s.public_ipv4 env.live_public_ip
  let w1 := w0 ++ (if psz.2 then [Warning.changedProperty "size"] else [])
               ++ (if pip.2 then [Warning.changedProperty "public_ipv4"] else [])
  match find_root_disk s.block_device_mapping with
  | none => .error (.assertFailed "deployed machine has no attached root disk record")
  | some rid =>
    match alFind s.block_device_mapping rid with
    | none => .error (.assertFailed "root disk record lookup")
    | some root_disk =>
      let r1 := warn_if_changed root_disk.host_caching vm.os_caching false
      let r2 := warn_if_changed root_disk.name vm.os_name false
      let r3 := warn_if_changed root_disk.media_link vm.os_uri false
      let w2 := w1 ++ (if r1.2 then [Warning.fieldChanged rid "host_caching"] else [])
                  ++ (if r2.2 then [Warning.fieldChanged rid "name"] else [])
                  ++ (if r3.2 then [Warning.fieldChanged rid "media_link"] else [])
      let bdm1 := alUpdate s.block_device_mapping rid (some root_disk)
      let acc1 := driftLoop env bdm1 ⟨bdm1, vm.data_disks, [], w2⟩
      let pu := scanUnexpected acc1.bdm acc1.vm_disks
      let opsU := if pu.2.isEmpty then acc1.ops else acc1.ops ++ [Op.updateVM pu.1]
      let sOut := { s with size := psz.1, public_ipv4 := pip.1,
                           block_device_mapping := acc1.bdm }
      .ok ⟨sOut, opsU, acc1.warns ++ pu.2⟩

/-! ## The create sequencer -/

/-- Modelled from the spec: no_change / no_property_change of the generic
resource base class (not among the sources).  The immutable-field guard:
on a deployed machine, abort when an identity-defining field of the desired
spec differs from the recorded one. -/
def immutableGuards (defn : AzureDefinition) (s : AzureState) : Except Err Unit :=
  if s.vm_id.isSome then
    if s.machine_name ≠ some defn.machine_name then .error (.immutableProperty "instance name")
    else if s.resource_group ≠ some defn.resource_group then .error (.immutableProperty "resource_group")
    else if s.virtual_network ≠ some defn.virtual_network then .error (.immutableProperty "virtual_network")
    else if s.storage ≠ some defn.storage then .error (.immutableProperty "storage")
    else if s.location ≠ some defn.location then .error (.immutableProperty "location")
    else .ok ()
  else .ok ()

/-- The field assignments at the top of create. -/
def setIdentity (defn : AzureDefinition) (s : AzureState) : AzureState :=
  { s with machine_name := some defn.machine_name,
           storage := some defn.storage,
           resource_group := some defn.resource_group,
           virtual_network := some defn.virtual_network,
           location := some defn.location }

/-- Generate the client and host key pairs when absent (the key-type
selection logic is collapsed into the environment supplying the pair). -/
def ensureKeys (env : Env) (s : AzureState) : AzureState :=
  let s1 :=
    if s.public_client_key.isNone then
      { s with public_client_key := some env.fresh_client_key.2,
               private_client_key := some env.fresh_client_key.1 }
    else s
  if s1.public_host_key.isNone then
    { s1 with public_host_key := some env.fresh_host_key.2,
              private_host_key := some env.fresh_host_key.1 }
  else s1

/-- The check pass of create: run the drift detector when the resource
exists and is recorded; destroy (after confirmation) a resource that exists
without being recorded; recover from unexpected deletion when recreation is
permitted.  The confirm-or-abort behaviour of warn_not_supposed_to_exist /
confirm_destroy is modelled from the spec, those helpers being outside the
sources. -/
def checkPhase (env : Env) (allow_recreate : Bool) (s : AzureState) :
    Except Err (AzureState × List Op × List Warning) :=
  match env.vm with
  | some vm =>
    if s.vm_id.isSome then
      match driftCheck env vm s with
      | .error e => .error e
      | .ok out => .ok (out.state, out.ops, out.warnings)
    else
      if env.confirm .destroyNotSupposedToExist then
        .ok (s, [Op.deleteVM], [Warning.notSupposedToExist])
      else .error .cannotContinue
  | none =>
    if s.vm_id.isSome then
      if allow_recreate then
        .ok (node_deleted s, [], [Warning.destroyedBehindOurBack])
      else .error .recreateRequired
    else .ok (s, [], [])

/-- The reboot guard: size and availability set changes require a reboot. -/
def rebootGuard (defn : AzureDefinition) (allow_reboot : Bool) (s : AzureState) :
    Except Err Unit :=
  if s.vm_id.isSome ∧ allow_reboot = false then
    if s.size ≠ some defn.size then .error (.rebootRequired "size")
    else if s.availability_set ≠ some defn.availability_set then
      .error (.rebootRequired "availability_set")
    else .ok ()
  else .ok ()

/-- Root-disk substitution: changing the deployed root disk identity,
caching or name requires destroying and re-creating the VM, permitted only
with allow_recreate. -/
def rootSubstitution (defn : AzureDefinition) (allow_recreate : Bool)
    (s : AzureState) : (Except Err AzureState) × List Op × List Warning :=
  if s.vm_id.isSome then
    match defn_find_root_disk defn.block_device_mapping with
    | none => (.error (.assertFailed "desired spec has no root disk"), [], [])
    | some def_rid =>
      match alFind defn.block_device_mapping def_rid with
      | none => (.error (.assertFailed "desired root disk lookup"), [], [])
      | some def_root =>
        match find_root_disk s.block_device_mapping with
        | none => (.error (.assertFailed "recorded machine has no attached root disk"), [], [])
        | some st_rid =>
          match alFind s.block_device_mapping st_rid with
          | none => (.error (.assertFailed "recorded root disk lookup"), [], [])
          | some st_root =>
            if def_rid ≠ st_rid ∨ def_root.host_caching ≠ st_root.host_caching
                ∨ def_root.name ≠ st_root.name then
              if allow_recreate then
                (.ok (node_deleted s), [Op.deleteVM], [Warning.rootModificationRecreate])
              else (.error .recreateRequired, [], [Warning.rootModificationRecreate])
            else (.ok s, [], [])
  else (.ok s, [], [])

/-- _create_vm: ensure public IP and network interface, then provision the
machine with the full desired disk set when no VM resource is recorded. -/
def create_vm (env : Env) (defn : AzureDefinition) (s : AzureState) :
    (Except Err AzureState) × List Op :=
  let p1 : AzureState × List Op :=
    if s.public_ip.isNone ∧ defn.obtain_ip then
      ({ s with public_ip := s.machine_name, obtain_ip := some defn.obtain_ip },
       [Op.createPublicIP])
    else (s, [])
  let p2 : AzureState × List Op :=
    if p1.1.network_interface.isNone then
      ({ p1.1 with network_interface := p1.1.machine_name }, p1.2 ++ [Op.createNIC])
    else p1
  let s2 := p2.1
  if s2.vm_id.isSome then (.ok s2, p2.2)
  else if env.vm.isSome then (.error .vmAlreadyExists, p2.2)
  else
    match defn_find_root_disk defn.block_device_mapping with
    | none => (.error (.assertFailed "desired spec has no root disk"), p2.2)
    | some rid =>
      match alFind defn.block_device_mapping rid with
      | none => (.error (.assertFailed "desired root disk lookup"), p2.2)
      | some root_spec =>
        let data_disks := defn.block_device_mapping.filterMap (fun e =>
          (device_name_to_lun e.2.device).map (fun lun =>
            (⟨e.2.name, e.2.media_link, e.2.host_caching, lun, e.2.size⟩ : VMDataDisk)))
        let ops := p2.2 ++ [Op.createVM root_spec.media_link data_disks]
        if env.provisioning_failed then (.error .provisioningFailed, ops)
        else
          let s3 := { s2 with
            vm_id := s2.machine_name,
            lifecycle := Lifecycle.starting,
            ssh_pinged := false,
            size := some defn.size,
            obtain_ip := some defn.obtain_ip,
            availability_set := some defn.availability_set,
            public_ipv4 := env.live_public_ip,
            block_device_mapping := defn.block_device_mapping.foldl
              (fun m e => alUpdate m e.1 (some e.2)) s2.block_device_mapping }
          (.ok s3, ops)

/-- properties_changed over defn_properties = size, obtain_ip,
availability_set. -/
def propertiesChanged (defn : AzureDefinition) (s : AzureState) : Bool :=
  s.size ≠ some defn.size ∨ s.obtain_ip ≠ some defn.obtain_ip
    ∨ s.availability_set ≠ some defn.availability_set

/-- The final property sync: push a hardware-profile update and copy the
declared property values into the record. -/
def propertySync (env : Env) (defn : AzureDefinition) (s : AzureState) :
    (Except Err AzureState) × List Op :=
  if propertiesChanged defn s then
    match env.vm with
    | none => (.error .deletedBehindBack, [])
    | some _ =>
      (.ok { s with size := some defn.size, obtain_ip := some defn.obtain_ip,
                    availability_set := some defn.availability_set },
       [Op.updateVMSize defn.size])
  else (.ok s, [])

/-- The sequencer steps that follow the legality checker, chained with
operation accumulation. -/
def createSeq (env : Env) (defn : AzureDefinition) (allow_recreate : Bool)
    (s : AzureState) : (Except Err AzureState) × List Op × List Warning :=
  match rootSubstitution defn allow_recreate s with
  | (.error e, ops0, w0) => (.error e, ops0, w0)
  | (.ok sA, ops0, w0) =>
    match change_existing_disk_parameters env defn sA with
    | .error e => (.error e, ops0, w0)
    | .ok (sB, ops1) =>
      match create_vm env defn sB with
      | (.error e, ops2) => (.error e, ops0 ++ ops1 ++ ops2, w0)
      | (.ok sC, ops2) =>
        match create_missing_attach_detached env defn sC with
        | .error e => (.error e, ops0 ++ ops1 ++ ops2, w0)
        | .ok (sD, ops3) =>
          let sE := generate_default_encryption_keys env sD
          match propertySync env defn sE with
          | (.error e, ops4) => (.error e, ops0 ++ ops1 ++ ops2 ++ ops3 ++ ops4, w0)
          | (.ok sF, ops4) => (.ok sF, ops0 ++ ops1 ++ ops2 ++ ops3 ++ ops4, w0)

/-- Everything of create that precedes the reboot guard and the legality
checker: the immutable-field guard, the identity field assignments, the key
generation, and the check pass when requested. -/
def createPre (env : Env) (defn : AzureDefinition) (check allow_recreate : Bool)
    (s0 : AzureState) : Except Err (AzureState × List Op × List Warning) :=
  match immutableGuards defn s0 with
  | .error e => .error e
  | .ok _ =>
    let s := ensureKeys env (setIdentity defn s0)
    if check then checkPhase env allow_recreate s else .ok (s, [], [])

/-- create: the full reconciliation entry point. -/
def create (env : Env) (defn : AzureDefinition)
    (check allow_reboot allow_recreate : Bool) (s0 : AzureState) :
    (Except Err AzureState) × List Op × List Warning :=
  match createPre env defn check allow_recreate s0 with
  | .error e => (.error e, [], [])
  | .ok (s1, ops1, w1) =>
    match rebootGuard defn allow_reboot s1 with
    | .error e => (.error e, ops1, w1)
    | .ok _ =>
      match assert_no_impossible_disk_changes s1 defn with
      | .error e => (.error e, ops1, w1)
      | .ok _ =>
        match createSeq env defn allow_recreate s1 with
        | (r, ops2, w2) => (r, ops1 ++ ops2, w1 ++ w2)

/-! ## destroy -/

/-- _delete_volume with delete_vhd unset: ask for confirmation, validate the
blob URL and its storage account, then delete the blob, warning instead
when it is already gone. -/
def deleteVolume (env : Env) (s : AzureState) (ops : List Op)
    (ws : List Warning) (media_link : String) :
    Except Err (List Op × List Warning) :=
  if env.confirm (.destroyBlob media_link) then
    match parse_blob_url media_link with
    | none => .error (.blobUrlParseFailed media_link)
    | some blob =>
      if s.storage ≠ some blob.storage then .error (.storageMismatch media_link)
      else if env.blob_exists media_link then
        .ok (ops ++ [Op.deleteBlob media_link], ws)
      else
        .ok (ops ++ [Op.deleteBlob media_link], ws ++ [Warning.alreadyDestroyed])
  else .ok (ops, ws ++ [Warning.keepingBlob media_link])

/-- _delete_encryption_key: remove a generated key only after confirmation;
declining skips the deletion. -/
def deleteEncryptionKeyStep (env : Env) (keys : AList String) (d_id : String) :
    AList String :=
  match alFind keys d_id with
  | none => keys
  | some _ =>
    if env.confirm (.deleteEncryptionKey d_id) then alUpdate keys d_id none
    else keys

/-- The per-disk teardown loop of destroy: delete ephemeral backing stores,
drop every record and its generated key. -/
def destroyDiskLoop (env : Env) : AList DiskRecord → AzureState → List Op →
    List Warning → (Except Err AzureState) × List Op × List Warning
  | [], s, ops, ws => (.ok s, ops, ws)
  | e :: rest, s, ops, ws =>
    let vol : Except Err (List Op × List Warning) :=
      if e.2.is_ephemeral then deleteVolume env s ops ws e.2.media_link
      else .ok (ops, ws)
    match vol with
    | .error err => (.error err, ops, ws)
    | .ok (ops1, ws1) =>
      let s1 := { s with
        block_device_mapping := alUpdate s.block_device_mapping e.1 none }
      let s2 := { s1 with
        generated_encryption_keys :=
          deleteEncryptionKeyStep env s1.generated_encryption_keys e.1 }
      destroyDiskLoop env rest s2 ops1 ws1

/-- The network-interface release step of destroy. -/
def destroyNics (env : Env) (p : AzureState × List Op × List Warning) :
    AzureState × List Op × List Warning :=
  if p.1.network_interface.isSome then
    if env.nic_exists then
      ({ p.1 with network_interface := none }, p.2.1 ++ [Op.deleteNIC], p.2.2)
    else
      ({ p.1 with network_interface := none }, p.2.1,
       p.2.2 ++ [Warning.alreadyDestroyed])
  else p

/-- The public-IP release step of destroy. -/
def destroyIps (env : Env) (p : AzureState × List Op × List Warning) :
    AzureState × List Op × List Warning :=
  if p.1.public_ip.isSome then
    if env.ip_exists then
      ({ p.1 with public_ip := none, obtain_ip := none },
       p.2.1 ++ [Op.deletePublicIP], p.2.2)
    else
      ({ p.1 with public_ip := none, obtain_ip := none },
       p.2.1, p.2.2 ++ [Warning.alreadyDestroyed])
  else p

/-- The final generated-keys confirmation of destroy: declining raises. -/
def destroyKeysGate (env : Env) (p : AzureState × List Op × List Warning) :
    (Except Err AzureState) × List Op × List Warning :=
  if p.1.generated_encryption_keys ≠ [] then
    if env.confirm .deleteKeysOnDestroy then (.ok p.1, p.2.1, p.2.2)
    else (.error .cannotContinue, p.2.1, p.2.2)
  else (.ok p.1, p.2.1, p.2.2)

/-- destroy from _node_deleted on: disk teardown, network interface and
public IP release, and the final generated-keys confirmation, whose decline
raises. -/
def destroyTeardown (env : Env) (s0 : AzureState) :
    (Except Err AzureState) × List Op × List Warning :=
  match destroyDiskLoop env (node_deleted s0).block_device_mapping
      (node_deleted s0) [] [] with
  | (.error e, ops, ws) => (.error e, ops, ws)
  | (.ok s1, ops, ws) =>
    destroyKeysGate env (destroyIps env (destroyNics env (s1, ops, ws)))

/-- destroy: ask for confirmation when the recorded VM resource exists;
declining returns false with nothing done; otherwise tear everything down
and return true. -/
def destroy (env : Env) (s : AzureState) :
    (Except Err (Bool × AzureState)) × List Op × List Warning :=
  if s.vm_id.isSome then
    match env.vm with
    | some _ =>
      if env.confirm .destroyMachine then
        match destroyTeardown env s with
        | (r, ops, ws) => (r.map (fun st => (true, st)), Op.deleteVM :: ops, ws)
      else (.ok (false, s), [], [])
    | none =>
      match destroyTeardown env s with
      | (r, ops, ws) =>
        (r.map (fun st => (true, st)), ops, Warning.alreadyDestroyed :: ws)
  else
    match destroyTeardown env s with
    | (r, ops, ws) => (r.map (fun st => (true, st)), ops, ws)

/-! ## Concrete instances used by witnesses and counterexamples -/

def exRootId : String := "https://stor.example.com/vhds/root.vhd"

def exRoot : DiskRecord :=
  ⟨"root", "/dev/sda", exRootId, none, false, "None", false, "", false⟩

def exU1 : String := "https://stor.example.com/vhds/d1.vhd"

def exD1 : DiskRecord :=
  ⟨"d1", "/dev/disk/by-lun/3", exU1, some 10, false, "None", false, "", false⟩

def exU2 : String := "https://stor.example.com/vhds/d2.vhd"

def exD2 : DiskRecord :=
  ⟨"d2", "/dev/disk/by-lun/3", exU2, some 10, false, "None", false, "", false⟩

/-- A deployed machine with the root disk and one data disk attached. -/
def exState : AzureState :=
  ⟨some "m", some "m", Lifecycle.up, some "Basic_A1", some "westus", some "stor",
   some "vnet", some "rg", some true, some "", some "1.2.3.4", some "m", some "m",
   some "pub", some "priv", some "hpub", some "hpriv", true,
   [(exRootId, exRoot), (exU1, exD1)], []⟩

/-- A live snapshot agreeing with exState, plus one unrecorded data disk. -/
def exVM : VMSnapshot :=
  ⟨"root", "None", exRootId,
   [⟨"d1", exU1, "None", 3, some 10⟩,
    ⟨"x", "https://stor.example.com/vhds/x.vhd", "None", 5, some 1⟩],
   "Basic_A1", false⟩

def exEnv : Env :=
  ⟨some exVM, fun _ => true, some "1.2.3.4", fun _ => true, fun _ => "K",
   ("a", "b"), ("c", "d"), true, true, false⟩

def exDefn : AzureDefinition :=
  ⟨"m", "Basic_A1", "westus", "stor", "vnet", "rg",
   "https://stor.example.com/vhds/img.vhd", true, "",
   [(exRootId, exRoot), (exU1, exD1)]⟩

/-- Whether a checker run rejected. -/
def isError {ε α : Type} : Except ε α → Bool
  | .error _ => true
  | .ok _ => false

/-- C1 counterexample state: only the root disk is recorded, so slot 3 has
no occupant. -/
def c1State : AzureState :=
  { exState with block_device_mapping := [(exRootId, exRoot)] }

/-- C1 counterexample desired map: two different disk identities, exU1 and
exU2, both at slot 3. -/
def c1Defn : AzureDefinition :=
  { exDefn with block_device_mapping :=
      [(exRootId, exRoot), (exU1, exD1), (exU2, exD2)] }

/-- C1 witness desired map: exU2 desires slot 3, which exState records as
occupied by the attached disk exU1. -/
def c1wDefn : AzureDefinition :=
  { exDefn with block_device_mapping := [(exRootId, exRoot), (exU2, exD2)] }

/-- C2 counterexample desired map: the attached root disk moves to slot 0,
keeping its name. -/
def c2Defn : AzureDefinition :=
  { exDefn with block_device_mapping :=
      [(exRootId, { exRoot with device := "/dev/disk/by-lun/0" }), (exU1, exD1)] }

/-- C2 witness desired map: only the caching mode of the attached data disk
exU1 changes. -/
def c2wDefn : AzureDefinition :=
  { exDefn with
      block_device_mapping := List.map
        (fun e => if e.1 = exU1 then (e.1, { e.2 with host_caching := "ReadOnly" }) else e)
        exState.block_device_mapping }

/-- C9 counterexample input: two disks whose device is the root path, with
distinct valid blob URLs on the owned storage account. -/
def c9Inp : DefinitionInput :=
  ⟨"m", "Basic_A1", "westus", "stor", "vnet", "rg",
   "https://stor.example.com/vhds/img.vhd", none, true, "",
   [⟨"r1", "/dev/sda", some "https://stor.example.com/vhds/r1.vhd",
     none, false, "None", false, ""⟩,
    ⟨"r2", "/dev/sda", some "https://stor.example.com/vhds/r2.vhd",
     none, false, "None", false, ""⟩]⟩

/-- C9 witness input: one root disk and one data disk, all constraints
satisfied. -/
def c9wInp : DefinitionInput :=
  ⟨"m", "Basic_A1", "westus", "stor", "vnet", "rg",
   "https://stor.example.com/vhds/img.vhd", none, true, "",
   [⟨"root", "/dev/sda", some exRootId, none, false, "None", false, ""⟩,
    ⟨"d1", "/dev/disk/by-lun/3", some exU1, some 10, false, "None", false, ""⟩]⟩

/-- The parse result of the C9 witness input. -/
def c9wDefn : AzureDefinition :=
  match parseDefinition c9wInp with
  | .ok d => d
  | .error _ => ⟨"", "", "", "", "", "", "", false, "", []⟩

/-- C5 environment: the live VM resource has disappeared. -/
def c5Env : Env := { exEnv with vm := none }

/-- C7 state: one encrypted disk with an empty passphrase whose key was
already generated. -/
def c7State : AzureState :=
  { exState with
      block_device_mapping := [(exU1, { exD1 with encrypt := true })],
      generated_encryption_keys := [(exU1, "KEY")] }

/-- C3 desired map: the attached data disk exU1 moves to slot 5, which the
legality checker rejects. -/
def c3Defn : AzureDefinition :=
  { exDefn with block_device_mapping :=
      [(exRootId, exRoot), (exU1, { exD1 with device := "/dev/disk/by-lun/5" })] }

/-- The pre-checker phase outcome of the C3 witness run. -/
def c3Pre : AzureState × List Op × List Warning :=
  match createPre exEnv c3Defn true false exState with
  | .ok t => t
  | .error _ => (exState, [], [])

/-- C6 counterexample state: nothing left to tear down except a generated
encryption key. -/
def c6State : AzureState :=
  { exState with
      vm_id := none,
      block_device_mapping := [],
      network_interface := none,
      public_ip := none,
      generated_encryption_keys := [("k", "v")] }

/-- C6 counterexample environment: the operator declines the final
generated-keys confirmation. -/
def c6Env : Env :=
  { exEnv with
      vm := none,
      confirm := fun c => !(c == Confirmation.deleteKeysOnDestroy) }

/-- C6 witness environment: the operator declines the main destruction
confirmation. -/
def c6wEnv : Env :=
  { exEnv with confirm := fun c => !(c == Confirmation.destroyMachine) }

/-- C4 counterexample live snapshot: the root disk carries a different name
than recorded (a divergence the detector cannot auto-fix), no data disks. -/
def c4VM : VMSnapshot := ⟨"other", "None", exRootId, [], "Basic_A1", false⟩

/-- C4 counterexample state: just the attached root disk record. -/
def c4State : AzureState :=
  { exState with block_device_mapping := [(exRootId, exRoot)] }

/-- The first drift run of the C4 counterexample. -/
def c4Out1 : DriftOut :=
  match driftCheck exEnv c4VM c4State with
  | .ok o => o
  | .error _ => ⟨c4State, [], []⟩

/-- The second drift run of the C4 counterexample. -/
def c4Out2 : DriftOut :=
  match driftCheck exEnv c4VM c4Out1.state with
  | .ok o => o
  | .error _ => ⟨c4State, [], []⟩

/-- The first drift run of the C4 witness. -/
def c4wOut1 : DriftOut :=
  match driftCheck exEnv exVM exState with
  | .ok o => o
  | .error _ => ⟨exState, [], []⟩

/-- The second drift run of the C4 witness. -/
def c4wOut2 : DriftOut :=
  match driftCheck exEnv exVM c4wOut1.state with
  | .ok o => o
  | .error _ => ⟨exState, [], []⟩

/-! ## Association-list lemmas -/

theorem alFind_eq_of_mem {α : Type} {m : AList α} {k : String} {v : α}
    (hnd : alNodup m) (hmem : (k, v) ∈ m) : alFind m k = some v := by
  induction m with
  | nil => cases hmem
  | cons e rest ih =>
    rw [alNodup, List.map_cons, List.nodup_cons] at hnd
    rcases List.mem_cons.mp hmem with h | h
    · rw [← h]
      simp [alFind]
    · have hk : e.1 ≠ k := by
        intro he
        exact hnd.1 (he ▸ (List.mem_map_of_mem Prod.fst h : (k, v).1 ∈ _))
      rw [alFind, if_neg hk]
      exact ih hnd.2 h

theorem mem_of_alFind_eq {α : Type} {m : AList α} {k : String} {v : α}
    (h : alFind m k = some v) : (k, v) ∈ m := by
  induction m with
  | nil => simp [alFind] at h
  | cons e rest ih =>
    by_cases hk : e.1 = k
    · rw [alFind, if_pos hk] at h
      refine List.mem_cons.mpr (Or.inl ?_)
      obtain ⟨a, b⟩ := e
      cases h
      rw [← hk]
    · rw [alFind, if_neg hk] at h
      exact List.mem_cons_of_mem e (ih h)

/-- With distinct keys, any member sharing the key of a lookup result is
that result. -/
theorem alNodup_key_unique {α : Type} {m : AList α} {k : String} {v : α}
    (hnd : alNodup m) (hfind : alFind m k = some v) :
    ∀ x ∈ m, x.1 = k → x.2 = v := by
  induction m with
  | nil => simp [alFind] at hfind
  | cons e rest ih =>
    rw [alNodup, List.map_cons, List.nodup_cons] at hnd
    intro x hx hxk
    rcases List.mem_cons.mp hx with h | h
    · rw [h] at hxk ⊢
      rw [alFind, if_pos hxk] at hfind
      exact Option.some.inj hfind
    · have he : e.1 ≠ k := by
        intro hek
        exact hnd.1 (hek ▸ hxk ▸ (List.mem_map_of_mem Prod.fst h : x.1 ∈ _))
      rw [alFind, if_neg he] at hfind
      exact ih hnd.2 hfind x h hxk

theorem find_map_if_key {α : Type} {k k' : String} {v : α} (h : k' ≠ k) :
    ∀ (l : AList α),
      alFind (List.map (fun e => if e.1 = k then (k, v) else e) l) k' = alFind l k' := by
  intro l
  induction l with
  | nil => rfl
  | cons e rest ih =>
    rw [List.map_cons]
    by_cases he : e.1 = k
    · rw [if_pos he, alFind, alFind, if_neg (fun hc => h hc.symm),
          if_neg (fun hc => h (he ▸ hc).symm)]
      exact ih
    · rw [if_neg he, alFind, alFind]
      split
      · rfl
      · exact ih

theorem find_append_single {α : Type} {k k' : String} {v : α} (h : k' ≠ k) :
    ∀ (l : AList α), alFind (l ++ [(k, v)]) k' = alFind l k' := by
  intro l
  induction l with
  | nil =>
    show alFind [(k, v)] k' = none
    rw [alFind, if_neg (fun hc => h hc.symm)]
    rfl
  | cons e rest ih =>
    rw [List.cons_append, alFind, alFind]
    split
    · rfl
    · exact ih

theorem alFind_alSet_ne {α : Type} {m : AList α} {k k' : String} {v : α}
    (h : k' ≠ k) : alFind (alSet m k v) k' = alFind m k' := by
  rw [alSet]
  split
  · exact find_map_if_key h m
  · exact find_append_single h m

theorem alFind_alDrop_ne {α : Type} {m : AList α} {k k' : String}
    (h : k' ≠ k) : alFind (alDrop m k) k' = alFind m k' := by
  induction m with
  | nil => rfl
  | cons e rest ih =>
    by_cases he : e.1 = k
    · rw [alDrop, if_pos he, alFind, if_neg (fun hc => h (he ▸ hc).symm)]
      exact ih
    · rw [alDrop, if_neg he, alFind, alFind]
      split
      · rfl
      · exact ih

theorem alFind_alUpdate_ne {α : Type} {m : AList α} {k k' : String}
    {v : Option α} (h : k' ≠ k) : alFind (alUpdate m k v) k' = alFind m k' := by
  cases v with
  | none => exact alFind_alDrop_ne h
  | some d => exact alFind_alSet_ne h

theorem map_if_key_id {α : Type} {k : String} {v : α} :
    ∀ (l : AList α), (∀ x ∈ l, x.1 ≠ k) →
      List.map (fun x => if x.1 = k then (k, v) else x) l = l := by
  intro l hl
  induction l with
  | nil => rfl
  | cons e rest ih =>
    rw [List.map_cons, if_neg (hl e (List.mem_cons_self e rest)), ih]
    intro x hx
    exact hl x (List.mem_cons_of_mem e hx)

theorem alSet_self {α : Type} {m : AList α} {k : String} {v : α}
    (hnd : alNodup m) (hfind : alFind m k = some v) : alSet m k v = m := by
  have hmem : (k, v) ∈ m := mem_of_alFind_eq hfind
  have hany : List.any m (fun e => decide (e.1 = k)) = true :=
    List.any_eq_true.mpr ⟨(k, v), hmem, by simp⟩
  rw [alSet, if_pos hany]
  have hcongr : ∀ x ∈ m, (if x.1 = k then (k, v) else x) = x := by
    intro x hx
    by_cases hxk : x.1 = k
    · have hv := alNodup_key_unique hnd hfind x hx hxk
      rw [if_pos hxk, ← hxk, ← hv]
    · rw [if_neg hxk]
  rw [List.map_congr_left hcongr]
  exact List.map_id m

theorem keys_map_if_key {α : Type} {k : String} {v : α} :
    ∀ (l : AList α),
      List.map Prod.fst (List.map (fun e => if e.1 = k then (k, v) else e) l) =
        List.map Prod.fst l := by
  intro l
  induction l with
  | nil => rfl
  | cons e rest ih =>
    rw [List.map_cons, List.map_cons, List.map_cons]
    by_cases he : e.1 = k
    · rw [if_pos he, ih]
      exact congrArg (fun z => z :: List.map Prod.fst rest) he.symm
    · rw [if_neg he, ih]

theorem keys_alSet_mem {α : Type} {m : AList α} {k : String} {v : α}
    (hany : List.any m (fun e => decide (e.1 = k)) = true) :
    List.map Prod.fst (alSet m k v) = List.map Prod.fst m := by
  rw [alSet, if_pos hany]
  exact keys_map_if_key m

theorem alNodup_alSet {α : Type} {m : AList α} {k : String} {v : α}
    (hnd : alNodup m) : alNodup (alSet m k v) := by
  rw [alSet]
  split
  · rw [alNodup, keys_map_if_key m]
    exact hnd
  · rw [alNodup, List.map_append, List.nodup_append]
    refine ⟨hnd, List.nodup_singleton k, ?_⟩
    intro a ha hb
    rw [List.map_singleton, List.mem_singleton] at hb
    rcases List.mem_map.mp ha with ⟨x, hx, hxk⟩
    have : List.any m (fun e => decide (e.1 = k)) = true :=
      List.any_eq_true.mpr ⟨x, hx, by simp [hxk, hb]⟩
    exact absurd this (by assumption)

theorem alDrop_sublist {α : Type} (k : String) :
    ∀ (m : AList α), List.Sublist (alDrop m k) m := by
  intro m
  induction m with
  | nil => exact List.Sublist.refl []
  | cons e rest ih =>
    by_cases he : e.1 = k
    · rw [alDrop, if_pos he]
      exact List.Sublist.cons e ih
    · rw [alDrop, if_neg he]
      exact List.Sublist.cons₂ e ih

theorem alNodup_alDrop {α : Type} {m : AList α} {k : String}
    (hnd : alNodup m) : alNodup (alDrop m k) := by
  exact ((alDrop_sublist k m).map Prod.fst).nodup hnd

theorem alNodup_alUpdate {α : Type} {m : AList α} {k : String} {v : Option α}
    (hnd : alNodup m) : alNodup (alUpdate m k v) := by
  cases v with
  | none => exact alNodup_alDrop hnd
  | some d => exact alNodup_alSet hnd

theorem mem_alSet {α : Type} {m : AList α} {k : String} {v : α} {e : String × α}
    (h : e ∈ alSet m k v) : e = (k, v) ∨ (e ∈ m ∧ e.1 ≠ k) := by
  rw [alSet] at h
  split at h
  · rcases List.mem_map.mp h with ⟨x, hx, hxe⟩
    by_cases hxk : x.1 = k
    · rw [if_pos hxk] at hxe
      exact Or.inl hxe.symm
    · rw [if_neg hxk] at hxe
      exact Or.inr ⟨hxe ▸ hx, hxe ▸ hxk⟩
  · rcases List.mem_append.mp h with h1 | h1
    · by_cases hek : e.1 = k
      · have : List.any m (fun x => decide (x.1 = k)) = true :=
          List.any_eq_true.mpr ⟨e, h1, by simp [hek]⟩
        exact absurd this (by assumption)
      · exact Or.inr ⟨h1, hek⟩
    · exact Or.inl (List.mem_singleton.mp h1)

theorem mem_alDrop {α : Type} {m : AList α} {k : String} {e : String × α}
    (h : e ∈ alDrop m k) : e ∈ m ∧ e.1 ≠ k := by
  induction m with
  | nil => cases h
  | cons x rest ih =>
    by_cases hx : x.1 = k
    · rw [alDrop, if_pos hx] at h
      exact ⟨List.mem_cons_of_mem x (ih h).1, (ih h).2⟩
    · rw [alDrop, if_neg hx] at h
      rcases List.mem_cons.mp h with h1 | h1
      · exact ⟨List.mem_cons.mpr (Or.inl h1), h1 ▸ hx⟩
      · exact ⟨List.mem_cons_of_mem x (ih h1).1, (ih h1).2⟩

theorem mem_alUpdate {α : Type} {m : AList α} {k : String} {v : Option α}
    {e : String × α} (h : e ∈ alUpdate m k v) :
    (e.1 = k ∧ v = some e.2) ∨ (e ∈ m ∧ e.1 ≠ k) := by
  cases v with
  | none => exact Or.inr (mem_alDrop h)
  | some d =>
    rcases mem_alSet h with h1 | h1
    · exact Or.inl (by rw [h1]; exact ⟨rfl, rfl⟩)
    · exact Or.inr h1

/-! ## Claim 8 and claim 10: slot addressing -/

/-- C8: for every slot 0..31 the slot-to-device conversion round-trips;
device_name_to_lun returns none for the root path, for any string the by-lun
pattern does not match, and for any matching path whose LUN value exceeds
31. -/
theorem claim8_confirmed :
    (∀ x : Fin 32, device_name_to_lun (lun_to_device_name x.val) = some x.val)
    ∧ device_name_to_lun "/dev/sda" = none
    ∧ (∀ s : String, lunPathMatches s = false → device_name_to_lun s = none)
    ∧ (∀ s : String, lunPathMatches s = true →
        31 < digitsVal (s.toList.drop 17) → device_name_to_lun s = none) := by
  refine ⟨by decide, by decide, ?_, ?_⟩
  · intro s h
    simp [device_name_to_lun, h]
  · intro s h1 h2
    rw [String.toList] at h2
    simp [device_name_to_lun, h1, h2, String.toList]

/-- Witness for C8 at slot 5, a malformed path, and LUN 40. -/
theorem claim8_witness :
    device_name_to_lun (lun_to_device_name 5) = some 5
    ∧ device_name_to_lun "/dev/disk/by-lun" = none
    ∧ device_name_to_lun "/dev/disk/by-lun/40" = none :=
  ⟨claim8_confirmed.1 ⟨5, by decide⟩,
   claim8_confirmed.2.2.1 "/dev/disk/by-lun" (by decide),
   claim8_confirmed.2.2.2 "/dev/disk/by-lun/40" (by decide) (by decide)⟩

/-- C10: device_name_to_lun is total and every slot it returns lies in
0..31 (it is a Nat, so nonnegative by construction). -/
theorem claim10_confirmed :
    ∀ (s : String) (n : Nat), device_name_to_lun s = some n → n ≤ 31 := by
  intro s n h
  unfold device_name_to_lun at h
  by_cases hm : lunPathMatches s = true
  · rw [if_pos hm] at h
    by_cases hv : digitsVal (s.toList.drop 17) > 31
    · rw [if_pos hv] at h
      cases h
    · rw [if_neg hv] at h
      cases h
      omega
  · rw [if_neg hm] at h
    cases h

/-- Witness for C10 at slot path 7. -/
theorem claim10_witness :
    device_name_to_lun "/dev/disk/by-lun/7" = some 7 ∧ 7 ≤ 31 :=
  ⟨by decide, claim10_confirmed "/dev/disk/by-lun/7" 7 (by decide)⟩

/-! ## Legality checker lemmas, claim 1 and claim 2 -/

theorem isError_of_ne_ok {r : Except Err Unit} (h : r ≠ .ok ()) :
    isError r = true := by
  cases r with
  | error e => rfl
  | ok u => cases u; exact absurd rfl h

theorem checkAllDisks_ok_iff {bdm L : AList DiskRecord} :
    checkAllDisks bdm L = .ok () ↔
      ∀ e ∈ L, checkOneDisk bdm e.1 e.2 = .ok () := by
  induction L with
  | nil => simp [checkAllDisks]
  | cons e rest ih =>
    cases hce : checkOneDisk bdm e.1 e.2 with
    | error err =>
      simp only [checkAllDisks, hce]
      constructor
      · intro h
        cases h
      · intro h
        have := h e (List.mem_cons_self e rest)
        rw [hce] at this
        cases this
    | ok u =>
      cases u
      simp only [checkAllDisks, hce]
      constructor
      · intro h x hx
        rcases List.mem_cons.mp hx with h1 | h1
        · rw [h1]
          exact hce
        · exact ih.mp h x h1
      · intro h
        exact ih.mpr (fun x hx => h x (List.mem_cons_of_mem e hx))

/-- C1, amended: with a VM resource present, the checker rejects a desired
disk whose slot is currently occupied, per the record, by a different
attached disk identity, raising the error that names the disk and the slot
(collisions between two desired disks at a slot with no current occupant
are not detected, which is the correction). -/
theorem claim1_amended :
    ∀ (s : AzureState) (defn : AzureDefinition) (ent occ : String × DiskRecord),
      s.vm_id.isSome = true →
      ent ∈ defn.block_device_mapping →
      List.find? (fun e => e.2.device == ent.2.device) s.block_device_mapping
        = some occ →
      (device_name_to_lun ent.2.device).isSome = true →
      occ.1 ≠ ent.1 →
      ((alFind s.block_device_mapping occ.1).map DiskRecord.needs_attach).getD false
        = false →
      checkOneDisk s.block_device_mapping ent.1 ent.2 =
        .error (.lunOccupied ent.2.name ent.2.media_link ent.2.device occ.1)
      ∧ isError (assert_no_impossible_disk_changes s defn) = true := by
  intro s defn ent occ hvm hmem hfind hlun hne hna
  obtain ⟨l, hl⟩ := Option.isSome_iff_exists.mp hlun
  have hcol : collisionOf s.block_device_mapping ent.1 ent.2 = some occ.1 := by
    simp only [collisionOf, hfind, hl]
    rw [if_pos ⟨hne, hna⟩]
  have h1 : checkOneDisk s.block_device_mapping ent.1 ent.2 =
      .error (.lunOccupied ent.2.name ent.2.media_link ent.2.device occ.1) := by
    simp only [checkOneDisk, hcol]
  refine ⟨h1, isError_of_ne_ok ?_⟩
  intro hok
  obtain ⟨vmid, hv⟩ := Option.isSome_iff_exists.mp hvm
  rw [assert_no_impossible_disk_changes, hv] at hok
  simp only [Option.isNone_some, Bool.false_eq_true, if_false] at hok
  have := checkAllDisks_ok_iff.mp hok ent hmem
  rw [h1] at this
  cases this

/-- C1 counterexample: the desired map places the two different identities
exU1 and exU2 both at slot 3; the slot has no current occupant, and the
checker accepts the map instead of rejecting it. -/
theorem claim1_counterexample :
    assert_no_impossible_disk_changes c1State c1Defn = .ok ()
    ∧ c1State.vm_id.isSome = true
    ∧ (exU1, exD1) ∈ c1Defn.block_device_mapping
    ∧ (exU2, exD2) ∈ c1Defn.block_device_mapping
    ∧ exU1 ≠ exU2
    ∧ exD1.device = exD2.device
    ∧ device_name_to_lun exD1.device = some 3
    ∧ List.find? (fun e => e.2.device == exD1.device) c1State.block_device_mapping
        = none := by
  decide

/-- C1 witness: desired disk exU2 aims at slot 3, currently held by the
attached disk exU1; the checker rejects with the error naming both. -/
theorem claim1_witness :
    exState.vm_id.isSome = true
    ∧ (exU2, exD2) ∈ c1wDefn.block_device_mapping
    ∧ checkOneDisk exState.block_device_mapping exU2 exD2 =
        .error (.lunOccupied "d2" exU2 "/dev/disk/by-lun/3" exU1) :=
  ⟨by decide, by decide,
   (claim1_amended exState c1wDefn (exU2, exD2) (exU1, exD1)
      (by decide) (by decide) (by decide) (by decide) (by decide) (by decide)).1⟩

theorem find_by_device_self {m : AList DiskRecord}
    (hdev : (List.map (fun x => x.2.device) m).Nodup) {e : String × DiskRecord}
    (he : e ∈ m) :
    List.find? (fun x => x.2.device == e.2.device) m = some e := by
  induction m with
  | nil => cases he
  | cons x rest ih =>
    rw [List.map_cons, List.nodup_cons] at hdev
    rcases List.mem_cons.mp he with h | h
    · rw [h]
      rw [List.find?_cons_of_pos]
      simp
    · have hne : x.2.device ≠ e.2.device := by
        intro hc
        exact hdev.1 (hc ▸ List.mem_map_of_mem (fun y => y.2.device) h)
      rw [List.find?_cons_of_neg]
      · exact ih hdev.2 h
      · simp [hne]

theorem collisionOf_none_of_find_none {m : AList DiskRecord} {d_id : String}
    {disk : DiskRecord}
    (hfd : List.find? (fun x => x.2.device == disk.device) m = none) :
    collisionOf m d_id disk = none := by
  simp [collisionOf, hfd]

theorem collisionOf_none_of_lun_none {m : AList DiskRecord} {d_id : String}
    {disk : DiskRecord} (hl : device_name_to_lun disk.device = none) :
    collisionOf m d_id disk = none := by
  unfold collisionOf
  rw [hl]
  cases List.find? (fun x => x.2.device == disk.device) m with
  | none => rfl
  | some e => rfl

/-- When the first record at the desired disk's device is the desired
identity itself, there is no collision. -/
theorem collisionOf_none_self {m : AList DiskRecord} {d_id : String}
    {disk : DiskRecord}
    (hfd : ∃ occ, List.find? (fun x => x.2.device == disk.device) m = some occ
             ∧ occ.1 = d_id) :
    collisionOf m d_id disk = none := by
  obtain ⟨occ, hf, hid⟩ := hfd
  unfold collisionOf
  rw [hf]
  cases hl : device_name_to_lun disk.device with
  | none => rfl
  | some l =>
    show (if occ.1 ≠ d_id ∧
        ((alFind m occ.1).map DiskRecord.needs_attach).getD false = false then
          some occ.1 else none) = none
    rw [if_neg (fun hc => hc.1 hid)]

theorem attachedGuard_ok_of_find_none {m : AList DiskRecord} {d_id : String}
    {disk : DiskRecord} (h : alFind m d_id = none) :
    attachedGuard m d_id disk = .ok () := by
  simp [attachedGuard, h]

theorem attachedGuard_ok_of_lun_none {m : AList DiskRecord} {d_id : String}
    {disk sd : DiskRecord} (h : alFind m d_id = some sd)
    (hl : device_name_to_lun sd.device = none) :
    attachedGuard m d_id disk = .ok () := by
  unfold attachedGuard
  rw [h]
  show (match device_name_to_lun sd.device with
        | none => Except.ok ()
        | some _ =>
          if sd.needs_attach = true then Except.ok ()
          else if sd.device ≠ disk.device then
            Except.error (Err.reattachForbidden disk.name d_id sd.device disk.device)
          else if sd.name ≠ disk.name then
            Except.error (Err.nameChangeForbidden sd.name d_id)
          else Except.ok ()) = Except.ok ()
  rw [hl]

/-- The attached guard accepts any desired disk that keeps the recorded
device and name. -/
theorem attachedGuard_ok_of_same {m : AList DiskRecord} {d_id : String}
    {disk sd : DiskRecord} (h : alFind m d_id = some sd)
    (hdev : sd.device = disk.device) (hname : sd.name = disk.name) :
    attachedGuard m d_id disk = .ok () := by
  unfold attachedGuard
  rw [h]
  show (match device_name_to_lun sd.device with
        | none => Except.ok ()
        | some _ =>
          if sd.needs_attach = true then Except.ok ()
          else if sd.device ≠ disk.device then
            Except.error (Err.reattachForbidden disk.name d_id sd.device disk.device)
          else if sd.name ≠ disk.name then
            Except.error (Err.nameChangeForbidden sd.name d_id)
          else Except.ok ()) = Except.ok ()
  cases hl : device_name_to_lun sd.device with
  | none => rfl
  | some l =>
    show (if sd.needs_attach = true then Except.ok ()
          else if sd.device ≠ disk.device then
            Except.error (Err.reattachForbidden disk.name d_id sd.device disk.device)
          else if sd.name ≠ disk.name then
            Except.error (Err.nameChangeForbidden sd.name d_id)
          else Except.ok ()) = Except.ok ()
    by_cases hna : sd.needs_attach = true
    · rw [if_pos hna]
    · rw [if_neg hna, if_neg (fun hc => hc hdev), if_neg (fun hc => hc hname)]

/-- Anything the attached guard accepts for a desired disk whose record is
an attached data disk keeps that record's device and name. -/
theorem attachedGuard_ok_elim {m : AList DiskRecord} {d_id : String}
    {disk sd : DiskRecord} {l : Nat}
    (h : attachedGuard m d_id disk = .ok ())
    (hsd : alFind m d_id = some sd)
    (hl : device_name_to_lun sd.device = some l)
    (hna : sd.needs_attach = false) :
    sd.device = disk.device ∧ sd.name = disk.name := by
  unfold attachedGuard at h
  rw [hsd] at h
  replace h : (match device_name_to_lun sd.device with
        | none => Except.ok ()
        | some _ =>
          if sd.needs_attach = true then Except.ok ()
          else if sd.device ≠ disk.device then
            Except.error (Err.reattachForbidden disk.name d_id sd.device disk.device)
          else if sd.name ≠ disk.name then
            Except.error (Err.nameChangeForbidden sd.name d_id)
          else Except.ok ()) = Except.ok () := h
  rw [hl] at h
  replace h : (if sd.needs_attach = true then Except.ok ()
      else if sd.device ≠ disk.device then
        Except.error (Err.reattachForbidden disk.name d_id sd.device disk.device)
      else if sd.name ≠ disk.name then
        Except.error (Err.nameChangeForbidden sd.name d_id)
      else Except.ok ()) = Except.ok () := h
  rw [hna] at h
  simp only [Bool.false_eq_true, if_false] at h
  by_cases hd : sd.device = disk.device
  · rw [if_neg (fun hc => hc hd)] at h
    by_cases hn : sd.name = disk.name
    · exact ⟨hd, hn⟩
    · rw [if_pos hn] at h
      cases h
  · rw [if_pos hd] at h
    cases h

/-- Anything the checker accepts for a desired disk whose record is an
attached data disk keeps that record's device and name. -/
theorem checkOneDisk_ok_elim {m : AList DiskRecord} {d_id : String}
    {disk sd : DiskRecord} {l : Nat}
    (h : checkOneDisk m d_id disk = .ok ())
    (hsd : alFind m d_id = some sd)
    (hl : device_name_to_lun sd.device = some l)
    (hna : sd.needs_attach = false) :
    sd.device = disk.device ∧ sd.name = disk.name := by
  unfold checkOneDisk at h
  cases hcol : collisionOf m d_id disk with
  | some occ =>
    rw [hcol] at h
    cases h
  | none =>
    rw [hcol] at h
    exact attachedGuard_ok_elim h hsd hl hna

/-- A desired disk identical to its own record passes the checker. -/
theorem checkOneDisk_ok_self {m : AList DiskRecord} {e : String × DiskRecord}
    (hnd : alNodup m)
    (hdev : (List.map (fun x => x.2.device) m).Nodup)
    (he : e ∈ m) : checkOneDisk m e.1 e.2 = .ok () := by
  have hfd := find_by_device_self hdev he
  have hself : alFind m e.1 = some e.2 := alFind_eq_of_mem hnd he
  rw [checkOneDisk, collisionOf_none_self ⟨e, hfd, rfl⟩]
  exact attachedGuard_ok_of_same hself rfl rfl

/-- A desired disk that changes only the caching mode of its own record
passes the checker. -/
theorem checkOneDisk_ok_caching {m : AList DiskRecord} {d_id c : String}
    {sd : DiskRecord}
    (hnd : alNodup m)
    (hdev : (List.map (fun x => x.2.device) m).Nodup)
    (hmem : (d_id, sd) ∈ m) :
    checkOneDisk m d_id { sd with host_caching := c } = .ok () := by
  have hfd : List.find?
      (fun x => x.2.device == ({ sd with host_caching := c } : DiskRecord).device) m
      = some (d_id, sd) := find_by_device_self hdev hmem
  have hself : alFind m d_id = some sd := alFind_eq_of_mem hnd hmem
  rw [checkOneDisk, collisionOf_none_self ⟨(d_id, sd), hfd, rfl⟩]
  exact attachedGuard_ok_of_same hself rfl rfl

theorem diskRecord_eta (d : DiskRecord) :
    DiskRecord.mk d.name d.device d.media_link d.size d.is_ephemeral
      d.host_caching d.encrypt d.passphrase d.needs_attach = d := rfl

/-- A desired disk equal to its own record leaves
_change_existing_disk_parameters state unchanged and issues no call. -/
theorem changeOneDisk_id {env : Env} {sC : AzureState} {e : String × DiskRecord}
    (hnd : alNodup sC.block_device_mapping)
    (hfind : alFind sC.block_device_mapping e.1 = some e.2) (ops : List Op) :
    changeOneDisk env sC ops e.1 e.2 = .ok (sC, ops) := by
  have hupd : alSet sC.block_device_mapping e.1 e.2 = sC.block_device_mapping :=
    alSet_self hnd hfind
  simp only [changeOneDisk, hfind]
  cases hl : device_name_to_lun e.2.device with
  | none => rfl
  | some l =>
    by_cases hc : sC.vm_id.isSome = true ∧ e.2.needs_attach = false
    · simp only [if_pos hc,
        if_neg (show ¬(e.2.host_caching ≠ e.2.host_caching) from fun h => h rfl)]
      simp only [alUpdate, diskRecord_eta, hupd]
    · simp only [if_neg hc, alUpdate, diskRecord_eta, hupd]

theorem changeDisksLoop_id {env : Env} :
    ∀ (L : AList DiskRecord) (sC : AzureState) (ops : List Op),
      alNodup sC.block_device_mapping →
      (∀ e ∈ L, alFind sC.block_device_mapping e.1 = some e.2) →
      changeDisksLoop env L sC ops = .ok (sC, ops) := by
  intro L
  induction L with
  | nil => intro sC ops _ _; rfl
  | cons e rest ih =>
    intro sC ops hnd h
    have h1 : changeOneDisk env sC ops e.1 e.2 = .ok (sC, ops) :=
      changeOneDisk_id hnd (h e (List.mem_cons_self e rest)) ops
    simp only [changeDisksLoop, h1]
    exact ih sC ops hnd (fun x hx => h x (List.mem_cons_of_mem e hx))

theorem changeDisksLoop_append {env : Env} :
    ∀ (L1 L2 : AList DiskRecord) (s : AzureState) (ops : List Op),
      changeDisksLoop env (L1 ++ L2) s ops =
        (match changeDisksLoop env L1 s ops with
         | .error err => .error err
         | .ok (s1, ops1) => changeDisksLoop env L2 s1 ops1) := by
  intro L1
  induction L1 with
  | nil => intro L2 s ops; rfl
  | cons e rest ih =>
    intro L2 s ops
    rw [List.cons_append]
    simp only [changeDisksLoop]
    cases hcc : changeOneDisk env s ops e.1 e.2 with
    | error err => rfl
    | ok p =>
      obtain ⟨s1, ops1⟩ := p
      exact ih L2 s1 ops1

/-- The one step of _change_existing_disk_parameters that pushes a caching
change of an attached data disk: a single whole-VM update call carrying the
new caching mode, and the record updated accordingly. -/
theorem changeOneDisk_caching {env : Env} {vm : VMSnapshot} {sC : AzureState}
    {d_id c : String} {sd : DiskRecord} {vd : VMDataDisk} {l : Nat}
    (hvm : sC.vm_id.isSome = true)
    (hfind : alFind sC.block_device_mapping d_id = some sd)
    (hl : device_name_to_lun sd.device = some l)
    (hna : sd.needs_attach = false)
    (hc : c ≠ sd.host_caching)
    (henv : env.vm = some vm)
    (hfound : List.find? (fun x => x.uri == sd.media_link) vm.data_disks = some vd)
    (ops : List Op) :
    changeOneDisk env sC ops d_id { sd with host_caching := c } =
      .ok ({ sC with block_device_mapping :=
               alUpdate sC.block_device_mapping d_id (some { sd with host_caching := c }) },
           ops ++ [Op.updateVM (List.map
             (fun x => if x.uri == sd.media_link then { x with caching := c } else x)
             vm.data_disks)]) := by
  simp only [changeOneDisk, hfind, hl]
  simp only [if_pos (⟨hvm, hna⟩ : sC.vm_id.isSome = true ∧ sd.needs_attach = false)]
  simp only [if_pos (show c ≠ sd.host_caching from hc)]
  simp only [henv, hfound]

/-- C2, amended: for a disk whose record is an attached data disk (the
recorded device is a slot path and needs_attach is unset, with a VM
present), the checker rejects a desired map that changes the disk's device
or its name, and accepts a map that only changes its caching mode, which
_change_existing_disk_parameters then applies through exactly one whole-VM
update call carrying the new caching.  The correction: the attached root
disk is exempt, its device may change without checker rejection. -/
theorem claim2_amended :
    (∀ (s : AzureState) (defn : AzureDefinition) (d_id : String)
        (sd : DiskRecord) (ent : String × DiskRecord) (l : Nat),
        s.vm_id.isSome = true →
        alFind s.block_device_mapping d_id = some sd →
        device_name_to_lun sd.device = some l →
        sd.needs_attach = false →
        ent ∈ defn.block_device_mapping → ent.1 = d_id →
        ent.2.device ≠ sd.device →
        isError (assert_no_impossible_disk_changes s defn) = true)
    ∧ (∀ (s : AzureState) (defn : AzureDefinition) (d_id : String)
        (sd : DiskRecord) (ent : String × DiskRecord) (l : Nat),
        s.vm_id.isSome = true →
        alFind s.block_device_mapping d_id = some sd →
        device_name_to_lun sd.device = some l →
        sd.needs_attach = false →
        ent ∈ defn.block_device_mapping → ent.1 = d_id →
        ent.2.name ≠ sd.name →
        isError (assert_no_impossible_disk_changes s defn) = true)
    ∧ (∀ (env : Env) (vm : VMSnapshot) (s : AzureState) (defn : AzureDefinition)
        (d_id c : String) (sd : DiskRecord) (vd : VMDataDisk) (l : Nat),
        alNodup s.block_device_mapping →
        (List.map (fun e => e.2.device) s.block_device_mapping).Nodup →
        s.vm_id.isSome = true →
        alFind s.block_device_mapping d_id = some sd →
        device_name_to_lun sd.device = some l →
        sd.needs_attach = false →
        c ≠ sd.host_caching →
        defn.block_device_mapping = List.map
          (fun e => if e.1 = d_id then (e.1, { e.2 with host_caching := c }) else e)
          s.block_device_mapping →
        env.vm = some vm →
        List.find? (fun x => x.uri == sd.media_link) vm.data_disks = some vd →
        assert_no_impossible_disk_changes s defn = .ok ()
        ∧ change_existing_disk_parameters env defn s =
            .ok ({ s with
                     block_device_mapping := alUpdate s.block_device_mapping d_id
                       (some { sd with host_caching := c }) },
                 [Op.updateVM (List.map
                   (fun x => if x.uri == sd.media_link then { x with caching := c } else x)
                   vm.data_disks)])) := by
  refine ⟨?_, ?_, ?_⟩
  · intro s defn d_id sd ent l hvm hfind hl hna hmem hid hd
    apply isError_of_ne_ok
    intro hok
    obtain ⟨vmid, hv⟩ := Option.isSome_iff_exists.mp hvm
    rw [assert_no_impossible_disk_changes, hv] at hok
    simp only [Option.isNone_some, Bool.false_eq_true, if_false] at hok
    have hce := checkAllDisks_ok_iff.mp hok ent hmem
    rw [hid] at hce
    exact hd (checkOneDisk_ok_elim hce hfind hl hna).1.symm
  · intro s defn d_id sd ent l hvm hfind hl hna hmem hid hn
    apply isError_of_ne_ok
    intro hok
    obtain ⟨vmid, hv⟩ := Option.isSome_iff_exists.mp hvm
    rw [assert_no_impossible_disk_changes, hv] at hok
    simp only [Option.isNone_some, Bool.false_eq_true, if_false] at hok
    have hce := checkAllDisks_ok_iff.mp hok ent hmem
    rw [hid] at hce
    exact hn (checkOneDisk_ok_elim hce hfind hl hna).2.symm
  · intro env vm s defn d_id c sd vd l hnd hdev hvm hfind hl hna hc hdefn henv hfound
    obtain ⟨vmid, hv⟩ := Option.isSome_iff_exists.mp hvm
    have hmem : (d_id, sd) ∈ s.block_device_mapping := mem_of_alFind_eq hfind
    have hchk : assert_no_impossible_disk_changes s defn = .ok () := by
      rw [assert_no_impossible_disk_changes, hv]
      simp only [Option.isNone_some, Bool.false_eq_true, if_false]
      apply checkAllDisks_ok_iff.mpr
      intro ent hent
      rw [hdefn] at hent
      rcases List.mem_map.mp hent with ⟨x, hx, hxe⟩
      by_cases hxk : x.1 = d_id
      · rw [if_pos hxk] at hxe
        have hx2 : x.2 = sd := alNodup_key_unique hnd hfind x hx hxk
        rw [← hxe]
        show checkOneDisk s.block_device_mapping x.1 { x.2 with host_caching := c }
          = .ok ()
        rw [hxk, hx2]
        exact checkOneDisk_ok_caching hnd hdev hmem
      · rw [if_neg hxk] at hxe
        rw [← hxe]
        exact checkOneDisk_ok_self hnd hdev hx
    refine ⟨hchk, ?_⟩
    obtain ⟨A, B, hAB⟩ := List.append_of_mem hmem
    have hndAB := hnd
    rw [hAB, alNodup, List.map_append, List.map_cons] at hndAB
    have hmid := List.nodup_cons.mp (List.nodup_middle.mp hndAB)
    have hkeyA : d_id ∉ List.map Prod.fst A :=
      fun hcon => hmid.1 (List.mem_append.mpr (Or.inl hcon))
    have hkeyB : d_id ∉ List.map Prod.fst B :=
      fun hcon => hmid.1 (List.mem_append.mpr (Or.inr hcon))
    have hA : List.map
        (fun e => if e.1 = d_id then (e.1, { e.2 with host_caching := c }) else e) A
        = A := by
      have hcg : ∀ x ∈ A,
          (if x.1 = d_id then (x.1, { x.2 with host_caching := c }) else x) = x := by
        intro x hx
        refine if_neg (fun hcon => hkeyA ?_)
        rw [← hcon]
        exact List.mem_map_of_mem Prod.fst hx
      rw [List.map_congr_left hcg]
      exact List.map_id A
    have hB : List.map
        (fun e => if e.1 = d_id then (e.1, { e.2 with host_caching := c }) else e) B
        = B := by
      have hcg : ∀ x ∈ B,
          (if x.1 = d_id then (x.1, { x.2 with host_caching := c }) else x) = x := by
        intro x hx
        refine if_neg (fun hcon => hkeyB ?_)
        rw [← hcon]
        exact List.mem_map_of_mem Prod.fst hx
      rw [List.map_congr_left hcg]
      exact List.map_id B
    have hdefn2 : defn.block_device_mapping =
        A ++ ((d_id, { sd with host_caching := c }) :: B) := by
      rw [hdefn, hAB, List.map_append, List.map_cons, hA, hB]
      simp
    rw [change_existing_disk_parameters, hdefn2, changeDisksLoop_append]
    have hAok : changeDisksLoop env A s [] = .ok (s, []) := by
      apply changeDisksLoop_id A s [] hnd
      intro x hx
      exact alFind_eq_of_mem hnd (by rw [hAB]; exact List.mem_append.mpr (Or.inl hx))
    simp only [hAok]
    have hstep := changeOneDisk_caching hvm hfind hl hna hc henv hfound []
    simp only [changeDisksLoop, hstep]
    apply changeDisksLoop_id
    · show alNodup (alUpdate s.block_device_mapping d_id
        (some { sd with host_caching := c }))
      exact alNodup_alUpdate hnd
    · intro x hx
      have hxmem : x ∈ s.block_device_mapping := by
        rw [hAB]
        exact List.mem_append.mpr (Or.inr (List.mem_cons_of_mem _ hx))
      have hxne : x.1 ≠ d_id := by
        intro hcon
        refine hkeyB ?_
        rw [← hcon]
        exact List.mem_map_of_mem Prod.fst hx
      show alFind (alUpdate s.block_device_mapping d_id
        (some { sd with host_caching := c })) x.1 = some x.2
      rw [alFind_alUpdate_ne hxne]
      exact alFind_eq_of_mem hnd hxmem

/-- C2 counterexample: the root disk is attached (needs_attach unset) and
the desired map moves it to slot 0, yet the checker accepts the map. -/
theorem claim2_counterexample :
    assert_no_impossible_disk_changes exState c2Defn = .ok ()
    ∧ exState.vm_id.isSome = true
    ∧ alFind exState.block_device_mapping exRootId = some exRoot
    ∧ exRoot.needs_attach = false
    ∧ (exRootId, { exRoot with device := "/dev/disk/by-lun/0" })
        ∈ c2Defn.block_device_mapping
    ∧ ({ exRoot with device := "/dev/disk/by-lun/0" } : DiskRecord).device
        ≠ exRoot.device := by
  decide

/-- C2 witness: changing only the caching of the attached data disk exU1 is
accepted and applied through a single update call. -/
theorem claim2_witness :
    assert_no_impossible_disk_changes exState c2wDefn = .ok ()
    ∧ change_existing_disk_parameters exEnv c2wDefn exState =
        .ok ({ exState with
                 block_device_mapping := alUpdate exState.block_device_mapping exU1
                   (some { exD1 with host_caching := "ReadOnly" }) },
             [Op.updateVM (List.map
               (fun x => if x.uri == exD1.media_link then { x with caching := "ReadOnly" } else x)
               exVM.data_disks)]) :=
  claim2_amended.2.2 exEnv exVM exState c2wDefn exU1 "ReadOnly" exD1
    ⟨"d1", exU1, "None", 3, some 10⟩ 3
    (by unfold alNodup; decide) (by decide) (by decide) (by decide) (by decide)
    (by decide) (by decide) (by decide) (by decide) (by decide)

/-! ## Claim 9: parse-time validation -/

theorem mapExcept_length {f : RawDisk → Except ParseErr DiskRecord} :
    ∀ {l : List RawDisk} {ys : List DiskRecord},
      mapExcept f l = .ok ys → ys.length = l.length := by
  intro l
  induction l with
  | nil =>
    intro ys h
    cases h
    rfl
  | cons x xs ih =>
    intro ys h
    unfold mapExcept at h
    cases hx : f x with
    | error e =>
      rw [hx] at h
      cases h
    | ok y =>
      rw [hx] at h
      cases hxs : mapExcept f xs with
      | error e =>
        rw [hxs] at h
        cases h
      | ok ys0 =>
        rw [hxs] at h
        cases h
        simp [ih hxs]

theorem any_key_false {α : Type} {m : AList α} {k : String}
    (h : k ∉ List.map Prod.fst m) :
    List.any m (fun e => decide (e.1 = k)) = false := by
  rw [List.any_eq_false]
  intro e he
  simp only [decide_eq_true_eq]
  intro hc
  exact h (hc ▸ List.mem_map_of_mem Prod.fst he)

theorem alSet_append {α : Type} {m : AList α} {k : String} {v : α}
    (h : k ∉ List.map Prod.fst m) : alSet m k v = m ++ [(k, v)] := by
  rw [alSet, if_neg]
  rw [any_key_false h]
  exact Bool.false_ne_true

theorem buildFold_nodup :
    ∀ (specs : List DiskRecord) (acc : AList DiskRecord), alNodup acc →
      alNodup (List.foldl (fun m d => alSet m d.media_link d) acc specs) := by
  intro specs
  induction specs with
  | nil => intro acc h; exact h
  | cons d rest ih =>
    intro acc h
    exact ih (alSet acc d.media_link d) (alNodup_alSet h)

theorem buildFold_key :
    ∀ (specs : List DiskRecord) (acc : AList DiskRecord),
      (∀ e ∈ acc, e.2.media_link = e.1) →
      ∀ e ∈ List.foldl (fun m d => alSet m d.media_link d) acc specs,
        e.2.media_link = e.1 := by
  intro specs
  induction specs with
  | nil => intro acc h; exact h
  | cons d rest ih =>
    intro acc h
    refine ih (alSet acc d.media_link d) ?_
    intro e he
    rcases mem_alSet he with h1 | h1
    · rw [h1]
    · exact h e h1.1

theorem buildFold_length :
    ∀ (specs : List DiskRecord) (acc : AList DiskRecord),
      (List.map DiskRecord.media_link specs).Nodup →
      (∀ d ∈ specs, d.media_link ∉ List.map Prod.fst acc) →
      (List.foldl (fun m d => alSet m d.media_link d) acc specs).length =
        acc.length + specs.length := by
  intro specs
  induction specs with
  | nil => intro acc _ _; rfl
  | cons d rest ih =>
    intro acc hnd hnk
    rw [List.map_cons, List.nodup_cons] at hnd
    have hd : d.media_link ∉ List.map Prod.fst acc :=
      hnk d (List.mem_cons_self d rest)
    have hkeys : List.map Prod.fst (alSet acc d.media_link d) =
        List.map Prod.fst acc ++ [d.media_link] := by
      rw [alSet_append hd, List.map_append]
      rfl
    have hstep := ih (alSet acc d.media_link d) hnd.2 ?_
    · rw [List.foldl_cons, hstep, alSet_append hd, List.length_append]
      simp [Nat.add_assoc, Nat.add_comm 1 rest.length]
    · intro x hx
      rw [hkeys]
      intro hc
      rcases List.mem_append.mp hc with h1 | h1
      · exact hnk x (List.mem_cons_of_mem d hx) h1
      · rw [List.mem_singleton] at h1
        exact hnd.1 (h1 ▸ List.mem_map_of_mem DiskRecord.media_link hx)

/-- C9, amended: a successful parse guarantees pairwise distinct backing
URLs (the map is keyed by them, nothing is merged, and the count matches the
input), every device the root path or a valid slot path, and at least one
root disk; the correction is that root-disk uniqueness is not checked, so
two root disks are accepted. -/
theorem claim9_amended :
    ∀ (inp : DefinitionInput) (defn : AzureDefinition),
      parseDefinition inp = .ok defn →
      (∀ e ∈ defn.block_device_mapping,
        e.2.device = "/dev/sda" ∨ (device_name_to_lun e.2.device).isSome = true)
      ∧ (defn_find_root_disk defn.block_device_mapping).isSome = true
      ∧ alNodup defn.block_device_mapping
      ∧ (∀ e ∈ defn.block_device_mapping, e.2.media_link = e.1)
      ∧ defn.block_device_mapping.length = inp.devices.length := by
  intro inp defn h
  unfold parseDefinition at h
  split at h
  · cases h
  · next specs hm =>
    dsimp only [] at h
    split at h
    · cases h
    · next hdup =>
      split at h
      · cases h
      · next hval =>
        split at h
        · cases h
        · next hroot =>
          cases h
          have hlinks : (List.map DiskRecord.media_link specs).Nodup := by
            push_neg at hdup
            have hsub := List.dedup_sublist (List.map DiskRecord.media_link specs)
            have := List.Sublist.eq_of_length hsub hdup.symm
            rw [← this]
            exact List.nodup_dedup _
          refine ⟨?_, ?_, ?_, ?_, ?_⟩
          · intro e he
            rw [Bool.not_eq_true, List.any_eq_false] at hval
            have := hval e he
            simp only [decide_eq_true_eq] at this
            rcases Decidable.not_and_iff_or_not.mp this with h1 | h1
            · left
              exact Decidable.not_not.mp h1
            · right
              cases hlun : device_name_to_lun e.2.device with
              | none => exact absurd hlun h1
              | some v => rfl
          · cases hfr : defn_find_root_disk (buildDeviceMap specs) with
            | none => rw [hfr] at hroot; exact absurd rfl hroot
            | some r => rfl
          · exact buildFold_nodup specs [] (by simp [alNodup])
          · exact buildFold_key specs [] (by intro e he; cases he)
          · rw [show (buildDeviceMap specs) =
                List.foldl (fun m d => alSet m d.media_link d) [] specs from rfl]
            rw [buildFold_length specs [] hlinks (by intro d hd hc; cases hc)]
            rw [mapExcept_length hm]
            simp

/-- C9 counterexample: the two-root-disk input parses successfully, with
both root entries present in the result. -/
theorem claim9_counterexample :
    (Except.toOption (parseDefinition c9Inp)).map (fun d =>
      (List.filter (fun e => e.2.device == "/dev/sda") d.block_device_mapping).length)
      = some 2 := by
  decide

/-- C9 witness: a valid one-root input parses and the amended guarantees
hold for it. -/
theorem claim9_witness :
    parseDefinition c9wInp = .ok c9wDefn
    ∧ (defn_find_root_disk c9wDefn.block_device_mapping).isSome = true :=
  ⟨by decide, (claim9_amended c9wInp c9wDefn (by decide)).2.1⟩

/-! ## Claim 5: recovery from unexpected deletion -/

theorem foldNA_all :
    ∀ (L m : AList DiskRecord),
      (∀ e ∈ m, e.2.needs_attach = true ∨ e.1 ∈ List.map Prod.fst L) →
      ∀ e ∈ List.foldl
        (fun acc p => alUpdate acc p.1 (some { p.2 with needs_attach := true })) m L,
        e.2.needs_attach = true := by
  intro L
  induction L with
  | nil =>
    intro m h e he
    rcases h e he with h1 | h1
    · exact h1
    · cases h1
  | cons p rest ih =>
    intro m h e he
    refine ih (alUpdate m p.1 (some { p.2 with needs_attach := true })) ?_ e he
    intro x hx
    rcases mem_alUpdate hx with ⟨hk, hv⟩ | ⟨hxm, hk⟩
    · left
      have h2 := Option.some.inj hv
      rw [← h2]
    · rcases h x hxm with h1 | h1
      · exact Or.inl h1
      · rw [List.map_cons] at h1
        rcases List.mem_cons.mp h1 with h2 | h2
        · exact absurd h2 hk
        · exact Or.inr h2

/-- C5: when the check pass finds no VM while one was recorded and
recreation is permitted, the record is reset through _node_deleted: the VM
id is cleared, the public IP is cleared, and every disk record is marked
needs_attach. -/
theorem claim5_confirmed :
    ∀ (env : Env) (s : AzureState),
      env.vm = none → s.vm_id.isSome = true →
      checkPhase env true s =
        .ok (node_deleted s, [], [Warning.destroyedBehindOurBack])
      ∧ (node_deleted s).vm_id = none
      ∧ (node_deleted s).public_ipv4 = none
      ∧ ∀ e ∈ (node_deleted s).block_device_mapping, e.2.needs_attach = true := by
  intro env s henv hvm
  refine ⟨?_, rfl, rfl, ?_⟩
  · rw [checkPhase, henv]
    simp [hvm]
  · intro e he
    refine foldNA_all s.block_device_mapping s.block_device_mapping ?_ e he
    intro x hx
    exact Or.inr (List.mem_map_of_mem Prod.fst hx)

/-- C5 witness at the concrete deployed state. -/
theorem claim5_witness :
    checkPhase c5Env true exState =
      .ok (node_deleted exState, [], [Warning.destroyedBehindOurBack])
    ∧ (node_deleted exState).vm_id = none
    ∧ (node_deleted exState).public_ipv4 = none :=
  have h := claim5_confirmed c5Env exState rfl (by decide)
  ⟨h.1, h.2.1, h.2.2.1⟩

/-! ## Claim 7: encryption key generation is run-once -/

theorem alFind_map_set {α : Type} {k : String} {v : α} :
    ∀ (m : AList α),
      alFind (List.map (fun e => if e.1 = k then (k, v) else e) m) k =
        (alFind m k).map (fun _ => v) := by
  intro m
  induction m with
  | nil => rfl
  | cons e rest ih =>
    by_cases he : e.1 = k
    · rw [List.map_cons, if_pos he, alFind, alFind, if_pos he]
      simp
    · rw [List.map_cons, if_neg he, alFind, alFind, if_neg he, if_neg he]
      exact ih

theorem alFind_append_right {α : Type} {m : AList α} {k : String} {v : α}
    (h : alFind m k = none) : alFind (m ++ [(k, v)]) k = some v := by
  induction m with
  | nil => simp [alFind]
  | cons e rest ih =>
    rw [alFind] at h
    rw [List.cons_append, alFind]
    by_cases he : e.1 = k
    · rw [if_pos he] at h
      cases h
    · rw [if_neg he] at h ⊢
      exact ih h

theorem alFind_isSome_of_any {α : Type} {m : AList α} {k : String}
    (h : List.any m (fun e => decide (e.1 = k)) = true) :
    (alFind m k).isSome = true := by
  induction m with
  | nil => cases h
  | cons e rest ih =>
    rw [List.any_cons] at h
    by_cases he : e.1 = k
    · rw [alFind, if_pos he]
      rfl
    · rw [alFind, if_neg he]
      rcases Bool.or_eq_true_iff.mp h with h1 | h1
      · rw [decide_eq_true_eq] at h1
        exact absurd h1 he
      · exact ih h1

theorem alFind_alSet_self {α : Type} {m : AList α} {k : String} {v : α} :
    alFind (alSet m k v) k = some v := by
  rw [alSet]
  split
  · rw [alFind_map_set]
    cases hf : alFind m k with
    | none =>
      have := alFind_isSome_of_any (by assumption)
      rw [hf] at this
      cases this
    | some w => rfl
  · refine alFind_append_right ?_
    cases hf : alFind m k with
    | none => rfl
    | some w =>
      have hmem := mem_of_alFind_eq hf
      have : List.any m (fun e => decide (e.1 = k)) = true :=
        List.any_eq_true.mpr ⟨(k, w), hmem, by simp⟩
      exact absurd this (by assumption)

theorem alFind_alUpdate_self {α : Type} {m : AList α} {k : String} {v : α} :
    alFind (alUpdate m k (some v)) k = some v := alFind_alSet_self

theorem genFold_mono {env : Env} :
    ∀ (L : AList DiskRecord) (keys : AList String) (d k : String),
      alFind keys d = some k →
      alFind (List.foldl (genKeyStep env) keys L) d = some k := by
  intro L
  induction L with
  | nil => intro keys d k h; exact h
  | cons p rest ih =>
    intro keys d k h
    rw [List.foldl_cons]
    refine ih (genKeyStep env keys p) d k ?_
    unfold genKeyStep
    split
    · next hcond =>
      have hne : p.1 ≠ d := by
        intro hc
        rw [hc, h] at hcond
        cases hcond.2.2
      rw [alFind_alUpdate_ne (fun hc => hne hc.symm)]
      exact h
    · exact h

theorem genFold_covers {env : Env} :
    ∀ (L : AList DiskRecord) (keys : AList String),
      ∀ e ∈ L, e.2.encrypt = true → e.2.passphrase = "" →
      (alFind (List.foldl (genKeyStep env) keys L) e.1).isSome = true := by
  intro L
  induction L with
  | nil =>
    intro keys e he
    cases he
  | cons p rest ih =>
    intro keys e he henc hpass
    rw [List.foldl_cons]
    rcases List.mem_cons.mp he with h1 | h1
    · subst h1
      have hsome : (alFind (genKeyStep env keys e) e.1).isSome = true := by
        unfold genKeyStep
        split
        · rw [alFind_alUpdate_self]
          rfl
        · next hcond =>
          cases hkk : alFind keys e.1 with
          | some w => rfl
          | none =>
            exact absurd ⟨henc, hpass, by rw [hkk]; rfl⟩ hcond
      rcases Option.isSome_iff_exists.mp hsome with ⟨w, hw⟩
      rw [genFold_mono rest (genKeyStep env keys e) e.1 w hw]
      rfl
    · exact ih (genKeyStep env keys p) e h1 henc hpass

theorem genFold_id {env : Env} :
    ∀ (L : AList DiskRecord) (keys : AList String),
      (∀ e ∈ L, e.2.encrypt = true → e.2.passphrase = "" →
        (alFind keys e.1).isSome = true) →
      List.foldl (genKeyStep env) keys L = keys := by
  intro L
  induction L with
  | nil => intro keys _; rfl
  | cons p rest ih =>
    intro keys h
    rw [List.foldl_cons]
    have hstep : genKeyStep env keys p = keys := by
      unfold genKeyStep
      split
      · next hcond =>
        have := h p (List.mem_cons_self p rest) hcond.1 hcond.2.1
        rw [Option.isNone_iff_eq_none] at hcond
        rw [hcond.2.2] at this
        cases this
      · rfl
    rw [hstep]
    exact ih keys (fun e he => h e (List.mem_cons_of_mem p he))

/-- C7: key generation never overwrites a stored key, and running the
generation step twice (with any randomness) equals running it once. -/
theorem claim7_confirmed :
    (∀ (env : Env) (s : AzureState) (d k : String),
      alFind s.generated_encryption_keys d = some k →
      alFind (generate_default_encryption_keys env s).generated_encryption_keys d
        = some k)
    ∧ (∀ (env env2 : Env) (s : AzureState),
      generate_default_encryption_keys env2 (generate_default_encryption_keys env s)
        = generate_default_encryption_keys env s) := by
  constructor
  · intro env s d k h
    exact genFold_mono s.block_device_mapping s.generated_encryption_keys d k h
  · intro env env2 s
    have hcov : ∀ e ∈ (generate_default_encryption_keys env s).block_device_mapping,
        e.2.encrypt = true → e.2.passphrase = "" →
        (alFind (generate_default_encryption_keys env s).generated_encryption_keys
          e.1).isSome = true := by
      intro e he henc hpass
      exact genFold_covers s.block_device_mapping s.generated_encryption_keys
        e he henc hpass
    have hid := @genFold_id env2
      (generate_default_encryption_keys env s).block_device_mapping
      (generate_default_encryption_keys env s).generated_encryption_keys hcov
    show { generate_default_encryption_keys env s with
        generated_encryption_keys :=
          List.foldl (genKeyStep env2)
            (generate_default_encryption_keys env s).generated_encryption_keys
            (generate_default_encryption_keys env s).block_device_mapping }
      = generate_default_encryption_keys env s
    rw [hid]

/-- C7 witness: a stored key survives another generation run unchanged. -/
theorem claim7_witness :
    alFind c7State.generated_encryption_keys exU1 = some "KEY"
    ∧ alFind
        (generate_default_encryption_keys exEnv c7State).generated_encryption_keys
        exU1 = some "KEY" :=
  ⟨by decide, claim7_confirmed.1 exEnv c7State exU1 "KEY" (by decide)⟩

/-! ## Claim 3: legality rejection aborts the sequencer -/

/-- C3, amended: when the legality checker rejects, create returns that
error, the final state is the state reached at checker time, and the only
remote calls issued are those of the check pass; with check off there are
none at all.  The correction: the check pass itself may already have issued
corrective calls (detaching unexpected or misplaced disks) before the
rejection. -/
theorem claim3_amended :
    ∀ (env : Env) (defn : AzureDefinition)
      (check allow_reboot allow_recreate : Bool)
      (s0 s1 : AzureState) (ops1 : List Op) (w1 : List Warning) (e : Err),
      createPre env defn check allow_recreate s0 = .ok (s1, ops1, w1) →
      rebootGuard defn allow_reboot s1 = .ok () →
      assert_no_impossible_disk_changes s1 defn = .error e →
      create env defn check allow_reboot allow_recreate s0 = (.error e, ops1, w1)
      ∧ (check = false → ops1 = []) := by
  intro env defn check allow_reboot allow_recreate s0 s1 ops1 w1 e h1 h2 h3
  constructor
  · simp only [create, h1, h2, h3]
  · intro hc
    rw [hc] at h1
    cases hg : immutableGuards defn s0 with
    | error e2 =>
      simp only [createPre, hg] at h1
      cases h1
    | ok u =>
      cases u
      simp only [createPre, hg, Bool.false_eq_true, if_false] at h1
      exact (congrArg (fun t => t.2.1) (Except.ok.inj h1)).symm

/-- C3 counterexample: with check on, the drift pass detaches an unexpected
disk (a mutating remote call) before the legality checker rejects the slot
reassignment, so the run does not abort before every mutating remote
call. -/
theorem claim3_counterexample :
    create exEnv c3Defn true false false exState =
      (.error (.reattachForbidden "d1" exU1 "/dev/disk/by-lun/3" "/dev/disk/by-lun/5"),
       [Op.updateVM [⟨"d1", exU1, "None", 3, some 10⟩]],
       [Warning.unexpectedDisk "https://stor.example.com/vhds/x.vhd"])
    ∧ [Op.updateVM [⟨"d1", exU1, "None", 3, some 10⟩]] ≠ ([] : List Op) := by
  decide

/-- C3 witness: the amended statement instantiated on the counterexample
run. -/
theorem claim3_witness :
    createPre exEnv c3Defn true false exState = .ok c3Pre
    ∧ create exEnv c3Defn true false false exState =
        (.error (.reattachForbidden "d1" exU1 "/dev/disk/by-lun/3" "/dev/disk/by-lun/5"),
         c3Pre.2.1, c3Pre.2.2) :=
  ⟨by decide,
   (claim3_amended exEnv c3Defn true false false exState c3Pre.1 c3Pre.2.1 c3Pre.2.2
      (.reattachForbidden "d1" exU1 "/dev/disk/by-lun/3" "/dev/disk/by-lun/5")
      (by decide) (by decide) (by decide)).1⟩

/-! ## Claim 6: destroy and confirmation declines -/

/-- C6, amended: destroy returns false exactly when the operator declines
the main destruction confirmation, in which case nothing is done; the
correction is the final generated-encryption-keys confirmation, whose
decline raises an exception instead of returning false. -/
theorem claim6_amended :
    (∀ (env : Env) (s : AzureState),
      s.vm_id.isSome = true → env.vm.isSome = true →
      env.confirm .destroyMachine = false →
      destroy env s = (.ok (false, s), [], []))
    ∧ (∀ (env : Env) (s : AzureState) (b : Bool) (s2 : AzureState)
        (ops : List Op) (ws : List Warning),
      destroy env s = (.ok (b, s2), ops, ws) → b = false →
      s.vm_id.isSome = true ∧ env.vm.isSome = true
        ∧ env.confirm .destroyMachine = false ∧ s2 = s ∧ ops = [] ∧ ws = [])
    ∧ (∀ (env : Env) (s : AzureState),
      s.vm_id = none → s.block_device_mapping = [] → s.network_interface = none →
      s.public_ip = none → s.generated_encryption_keys ≠ [] →
      env.confirm .deleteKeysOnDestroy = false →
      destroy env s = (.error .cannotContinue, [], [])) := by
  refine ⟨?_, ?_, ?_⟩
  · intro env s hvm henv hconf
    obtain ⟨vm, hv⟩ := Option.isSome_iff_exists.mp henv
    rw [destroy, if_pos hvm, hv]
    rw [if_neg (fun hc => by rw [hconf] at hc; cases hc)]
  · intro env s b s2 ops ws h hb
    subst hb
    by_cases hvm : s.vm_id.isSome = true
    · rw [destroy, if_pos hvm] at h
      cases henv : env.vm with
      | some vm =>
        rw [henv] at h
        by_cases hconf : env.confirm .destroyMachine = true
        · rw [if_pos hconf] at h
          rcases ht : destroyTeardown env s with ⟨r, ops2, ws2⟩
          rw [ht] at h
          cases r with
          | error err => simp [Except.map] at h
          | ok st => simp [Except.map] at h
        · rw [if_neg hconf] at h
          simp only [Prod.mk.injEq, Except.ok.injEq] at h
          have hcf : env.confirm .destroyMachine = false := by
            cases hcc : env.confirm .destroyMachine with
            | true => exact absurd hcc hconf
            | false => rfl
          exact ⟨hvm, rfl, hcf, h.1.2.symm, h.2.1.symm, h.2.2.symm⟩
      | none =>
        try rw [henv] at h
        rcases ht : destroyTeardown env s with ⟨r, ops2, ws2⟩
        rw [ht] at h
        cases r with
        | error err => simp [Except.map] at h
        | ok st => simp [Except.map] at h
    · rw [destroy, if_neg hvm] at h
      rcases ht : destroyTeardown env s with ⟨r, ops2, ws2⟩
      rw [ht] at h
      cases r with
      | error err => simp [Except.map] at h
      | ok st => simp [Except.map] at h
  · intro env s hvm hbdm hnic hip hkeys hconf
    have h1 : (node_deleted s).block_device_mapping = [] := by
      show List.foldl _ s.block_device_mapping s.block_device_mapping = []
      rw [hbdm]
      rfl
    have h2 : (node_deleted s).network_interface = none := hnic
    have h3 : (node_deleted s).public_ip = none := hip
    rw [destroy, if_neg (by rw [hvm]; exact Bool.false_ne_true)]
    have hloop : destroyDiskLoop env (node_deleted s).block_device_mapping
        (node_deleted s) [] [] = (.ok (node_deleted s), [], []) := by
      rw [h1]
      rfl
    simp only [destroyTeardown, hloop]
    have hn : destroyNics env ((node_deleted s : AzureState), ([] : List Op),
        ([] : List Warning)) = (node_deleted s, [], []) := by
      simp only [destroyNics, h2, Option.isSome_none, Bool.false_eq_true, if_false]
    have hi : destroyIps env ((node_deleted s : AzureState), ([] : List Op),
        ([] : List Warning)) = (node_deleted s, [], []) := by
      simp only [destroyIps, h3, Option.isSome_none, Bool.false_eq_true, if_false]
    rw [hn, hi]
    have hg : destroyKeysGate env ((node_deleted s : AzureState), ([] : List Op),
        ([] : List Warning)) = (.error .cannotContinue, [], []) := by
      have hk : (node_deleted s).generated_encryption_keys ≠ [] := hkeys
      simp only [destroyKeysGate, if_pos hk, hconf, Bool.false_eq_true, if_false]
    rw [hg]
    rfl

/-- C6 counterexample: during destruction the operator declines the
generated-encryption-keys confirmation and destroy raises instead of
returning a not-completed value. -/
theorem claim6_counterexample :
    destroy c6Env c6State = (.error .cannotContinue, [], [])
    ∧ c6Env.confirm .deleteKeysOnDestroy = false := by
  constructor
  · decide
  · decide

/-- C6 witness: declining the main destruction confirmation returns false
with no remote call. -/
theorem claim6_witness :
    destroy c6wEnv exState = (.ok (false, exState), [], []) :=
  claim6_amended.1 c6wEnv exState (by decide) (by decide) (by decide)

/-! ## Claim 4: idempotence of the drift detector -/

theorem warn_fix_fst {α : Type} [DecidableEq α] (a b : α) :
    (warn_if_changed a b true).1 = b := by
  unfold warn_if_changed
  split
  · assumption
  · rfl

theorem withNA_self {d : DiskRecord} (h : d.needs_attach = true) :
    { d with needs_attach := true } = d := by
  obtain ⟨n, dev, ml, sz, ie, hc, en, pp, na⟩ := d
  cases h
  rfl

/-- The record written back by a drift-loop step for a disk that is present
on the VM, in canonical form. -/
theorem driftUpdateOf_found {env : Env} {v : List VMDataDisk} {disk : DiskRecord}
    {l : Nat} {vd : VMDataDisk}
    (hl : device_name_to_lun disk.device = some l)
    (hf : List.find? (fun x => x.uri == disk.media_link) v = some vd) :
    driftUpdateOf env v disk =
      some (some { disk with host_caching := vd.caching,
                             size := vd.disk_size_gb,
                             needs_attach := decide (vd.lun ≠ l) }) := by
  obtain ⟨n, dev, ml, sz, ie, hc, en, pp, na⟩ := disk
  unfold driftUpdateOf
  rw [hl, hf]
  dsimp only
  rw [warn_fix_fst, warn_fix_fst]
  by_cases hna : na = true <;> by_cases hq : vd.lun ≠ l <;>
    simp [hna, hq]

/-- The record written back by a drift-loop step for a disk that is missing
from the VM, in canonical form. -/
theorem driftUpdateOf_notfound {env : Env} {v : List VMDataDisk}
    {disk : DiskRecord} {l : Nat}
    (hl : device_name_to_lun disk.device = some l)
    (hf : List.find? (fun x => x.uri == disk.media_link) v = none) :
    driftUpdateOf env v disk =
      some (if env.blob_exists disk.media_link then
              some { disk with needs_attach := true } else none) := by
  obtain ⟨n, dev, ml, sz, ie, hc, en, pp, na⟩ := disk
  unfold driftUpdateOf
  rw [hl, hf]
  dsimp only
  by_cases hna : na = true <;> simp [hna]

theorem driftUpdateOf_none_lun {env : Env} {v : List VMDataDisk}
    {disk : DiskRecord} (hl : device_name_to_lun disk.device = none) :
    driftUpdateOf env v disk = none := by
  unfold driftUpdateOf
  rw [hl]

/-- A present disk whose caching, size and needs_attach flag already agree
with the VM is written back unchanged. -/
theorem driftUpdateOf_found_stable {env : Env} {v : List VMDataDisk}
    {disk : DiskRecord} {l : Nat} {vd : VMDataDisk}
    (hl : device_name_to_lun disk.device = some l)
    (hf : List.find? (fun x => x.uri == disk.media_link) v = some vd)
    (hc : disk.host_caching = vd.caching)
    (hs : disk.size = vd.disk_size_gb)
    (hn : disk.needs_attach = decide (vd.lun ≠ l)) :
    driftUpdateOf env v disk = some (some disk) := by
  rw [driftUpdateOf_found hl hf, ← hc, ← hs, ← hn]

/-- A missing disk whose blob still exists and which is already flagged for
reattachment is written back unchanged. -/
theorem driftUpdateOf_notfound_stable {env : Env} {v : List VMDataDisk}
    {disk : DiskRecord} {l : Nat}
    (hl : device_name_to_lun disk.device = some l)
    (hf : List.find? (fun x => x.uri == disk.media_link) v = none)
    (hb : env.blob_exists disk.media_link = true)
    (hn : disk.needs_attach = true) :
    driftUpdateOf env v disk = some (some disk) := by
  rw [driftUpdateOf_notfound hl hf, hb, withNA_self hn]
  rfl

/-- The record a drift-loop step writes back keeps its media link and is a
fixpoint of the step (relative to the same data-disk list). -/
theorem driftUpdateOf_stable {env : Env} {v : List VMDataDisk}
    {disk d : DiskRecord}
    (h : driftUpdateOf env v disk = some (some d)) :
    d.media_link = disk.media_link ∧ driftUpdateOf env v d = some (some d) := by
  cases hl : device_name_to_lun disk.device with
  | none => rw [driftUpdateOf_none_lun hl] at h; cases h
  | some l =>
    cases hf : List.find? (fun x => x.uri == disk.media_link) v with
    | some vd =>
      rw [driftUpdateOf_found hl hf] at h
      have h3 := Option.some.inj (Option.some.inj h)
      have hdev : d.device = disk.device := by rw [← h3]
      have hml : d.media_link = disk.media_link := by rw [← h3]
      have hhc : d.host_caching = vd.caching := by rw [← h3]
      have hsz : d.size = vd.disk_size_gb := by rw [← h3]
      have hna : d.needs_attach = decide (vd.lun ≠ l) := by rw [← h3]
      refine ⟨hml, driftUpdateOf_found_stable ?_ ?_ hhc hsz hna⟩
      · rw [hdev]; exact hl
      · rw [hml]; exact hf
    | none =>
      rw [driftUpdateOf_notfound hl hf] at h
      have h2 := Option.some.inj h
      cases hb : env.blob_exists disk.media_link with
      | false => rw [hb] at h2; simp at h2
      | true =>
        rw [hb] at h2
        rw [if_pos rfl] at h2
        have h3 := Option.some.inj h2
        have hdev : d.device = disk.device := by rw [← h3]
        have hml : d.media_link = disk.media_link := by rw [← h3]
        have hna : d.needs_attach = true := by rw [← h3]
        refine ⟨hml, driftUpdateOf_notfound_stable (l := l) ?_ ?_ ?_ hna⟩
        · rw [hdev]; exact hl
        · rw [hml]; exact hf
        · rw [hml]; exact hb

/-- The drift-loop step outcome for a record depends on the data-disk list
only through the lookup of the record's media link. -/
theorem driftUpdateOf_congr {env : Env} {v w : List VMDataDisk}
    {disk : DiskRecord}
    (h : List.find? (fun x => x.uri == disk.media_link) v
       = List.find? (fun x => x.uri == disk.media_link) w) :
    driftUpdateOf env v disk = driftUpdateOf env w disk := by
  unfold driftUpdateOf
  simp only [h]

/-- Erasing an element that a search predicate rejects does not change the
search result. -/
theorem find_erase_of_ne {p : VMDataDisk → Bool} {a : VMDataDisk}
    (h : p a = false) :
    ∀ (v : List VMDataDisk), List.find? p (v.erase a) = List.find? p v := by
  intro v
  induction v with
  | nil => rfl
  | cons x xs ih =>
    rw [List.erase_cons]
    by_cases hx : x = a
    · rw [if_pos (by rw [hx]; exact beq_self_eq_true a), hx]
      rw [List.find?_cons_of_neg _ (by rw [h]; exact Bool.false_ne_true)]
    · rw [if_neg (by simpa using hx)]
      cases hp : p x with
      | true =>
        rw [List.find?_cons_of_pos _ hp, List.find?_cons_of_pos _ hp]
      | false =>
        rw [List.find?_cons_of_neg _ (by rw [hp]; exact Bool.false_ne_true),
            List.find?_cons_of_neg _ (by rw [hp]; exact Bool.false_ne_true)]
        exact ih

/-- The in-memory VM mutation of a drift-loop step does not disturb later
lookups of other media links. -/
theorem driftVMOf_find_ne {v : List VMDataDisk} {disk : DiskRecord}
    {u : String} (h : disk.media_link ≠ u) :
    List.find? (fun x => x.uri == u) (driftVMOf v disk)
      = List.find? (fun x => x.uri == u) v := by
  unfold driftVMOf
  cases hl : device_name_to_lun disk.device with
  | none => rfl
  | some l =>
    cases hf : List.find? (fun vd => vd.uri == disk.media_link) v with
    | none => rfl
    | some vd =>
      dsimp only
      by_cases hq : vd.lun ≠ l
      · rw [if_pos hq]
        have huri : vd.uri = disk.media_link := by
          have := List.find?_some hf
          simpa using this
        refine find_erase_of_ne ?_ v
        simp [huri, h]
      · rw [if_neg hq]

/-- The record-map effect of one drift-loop step, through driftUpdateOf. -/
theorem driftEntry_bdm (env : Env) (acc : LoopAcc) (k : String)
    (disk : DiskRecord) :
    (driftEntry env acc k disk).bdm =
      match driftUpdateOf env acc.vm_disks disk with
      | none => acc.bdm
      | some v => alUpdate acc.bdm k v := by
  unfold driftEntry driftUpdateOf
  cases hl : device_name_to_lun disk.device with
  | none => rfl
  | some l =>
    cases hf : List.find? (fun vd => vd.uri == disk.media_link) acc.vm_disks with
    | some vd =>
      dsimp only
      by_cases hna : disk.needs_attach = true <;> by_cases hq : vd.lun ≠ l <;>
        simp [hna, hq]
    | none =>
      dsimp only
      by_cases hna : disk.needs_attach = true <;>
        cases hb : env.blob_exists disk.media_link <;>
          simp [hna, hb]

/-- The in-memory VM effect of one drift-loop step, through driftVMOf. -/
theorem driftEntry_vm (env : Env) (acc : LoopAcc) (k : String)
    (disk : DiskRecord) :
    (driftEntry env acc k disk).vm_disks = driftVMOf acc.vm_disks disk := by
  unfold driftEntry driftVMOf
  cases hl : device_name_to_lun disk.device with
  | none => rfl
  | some l =>
    cases hf : List.find? (fun vd => vd.uri == disk.media_link) acc.vm_disks with
    | some vd =>
      dsimp only
      by_cases hq : vd.lun ≠ l <;> simp [hq]
    | none =>
      dsimp only
      cases hb : env.blob_exists disk.media_link <;> simp [hb]

/-- After one full drift pass over a key-distinct record map whose entries
are keyed by their media links, every surviving entry is a fixpoint of the
step, still keyed by its media link, and the keys are still distinct. -/
theorem driftLoop_inv (env : Env) (v0 : List VMDataDisk) :
    ∀ (L : AList DiskRecord) (acc : LoopAcc),
      (List.map Prod.fst L).Nodup →
      (∀ e ∈ L, e.2.media_link = e.1) →
      (∀ e ∈ L, List.find? (fun x => x.uri == e.2.media_link) acc.vm_disks
        = List.find? (fun x => x.uri == e.2.media_link) v0) →
      (∀ e ∈ acc.bdm, e.1 ∈ List.map Prod.fst L → e ∈ L) →
      (∀ e ∈ acc.bdm, e.1 ∉ List.map Prod.fst L →
        driftFix env v0 e.2 ∧ e.2.media_link = e.1) →
      alNodup acc.bdm →
      (∀ e ∈ (driftLoop env L acc).bdm,
        driftFix env v0 e.2 ∧ e.2.media_link = e.1)
      ∧ alNodup (driftLoop env L acc).bdm := by
  intro L
  induction L with
  | nil =>
    intro acc _ _ _ _ hE hnd
    exact ⟨fun e he => hE e he (by simp), hnd⟩
  | cons hd tl ih =>
    intro acc hndL hmedL hfind hC hE hnd
    obtain ⟨k, d⟩ := hd
    rw [List.map_cons, List.nodup_cons] at hndL
    obtain ⟨hknotin, hndtl⟩ := hndL
    replace hknotin : k ∉ List.map Prod.fst tl := hknotin
    have hmedhd : d.media_link = k := hmedL (k, d) (List.mem_cons_self _ _)
    have hcongr : driftUpdateOf env acc.vm_disks d = driftUpdateOf env v0 d :=
      driftUpdateOf_congr (hfind (k, d) (List.mem_cons_self _ _))
    have hbdm := driftEntry_bdm env acc k d
    have hvm := driftEntry_vm env acc k d
    rw [hcongr] at hbdm
    have hstep : driftLoop env ((k, d) :: tl) acc
        = driftLoop env tl (driftEntry env acc k d) := rfl
    rw [hstep]
    have hmed' : ∀ e ∈ tl, e.2.media_link = e.1 :=
      fun e he => hmedL e (List.mem_cons_of_mem _ he)
    have hfind' : ∀ e ∈ tl,
        List.find? (fun x => x.uri == e.2.media_link)
          (driftEntry env acc k d).vm_disks
        = List.find? (fun x => x.uri == e.2.media_link) v0 := by
      intro e he
      rw [hvm]
      have hne : d.media_link ≠ e.2.media_link := by
        rw [hmedhd, hmed' e he]
        intro hk
        exact hknotin (by rw [hk]; exact List.mem_map_of_mem Prod.fst he)
      rw [driftVMOf_find_ne hne]
      exact hfind e (List.mem_cons_of_mem _ he)
    cases hu : driftUpdateOf env v0 d with
    | none =>
      rw [hu] at hbdm
      dsimp only at hbdm
      refine ih (driftEntry env acc k d) hndtl hmed' hfind' ?_ ?_ ?_
      · intro e he hkeys
        rw [hbdm] at he
        have h1 := hC e he (by rw [List.map_cons]; exact List.mem_cons_of_mem _ hkeys)
        rcases List.mem_cons.mp h1 with h2 | h2
        · exact absurd (by rw [h2] at hkeys; exact hkeys) hknotin
        · exact h2
      · intro e he hkeys
        rw [hbdm] at he
        by_cases hek : e.1 = k
        · have h1 := hC e he (by rw [List.map_cons, hek]; exact List.mem_cons_self _ _)
          rcases List.mem_cons.mp h1 with h2 | h2
          · constructor
            · rw [h2]
              exact Or.inl hu
            · rw [h2]
              exact hmedhd
          · exact absurd (by rw [← hek]; exact List.mem_map_of_mem Prod.fst h2 : k ∈ List.map Prod.fst tl) hknotin
        · refine hE e he ?_
          rw [List.map_cons]
          intro hmem
          rcases List.mem_cons.mp hmem with h2 | h2
          · exact hek h2
          · exact hkeys h2
      · rw [hbdm]
        exact hnd
    | some v =>
      rw [hu] at hbdm
      dsimp only at hbdm
      refine ih (driftEntry env acc k d) hndtl hmed' hfind' ?_ ?_ ?_
      · intro e he hkeys
        rw [hbdm] at he
        rcases mem_alUpdate he with ⟨hek, _⟩ | ⟨hmem, hek⟩
        · exact absurd (hek ▸ hkeys) hknotin
        · have h1 := hC e hmem (by rw [List.map_cons]; exact List.mem_cons_of_mem _ hkeys)
          rcases List.mem_cons.mp h1 with h2 | h2
          · exact absurd (by rw [h2] at hkeys; exact hkeys) hknotin
          · exact h2
      · intro e he hkeys
        rw [hbdm] at he
        rcases mem_alUpdate he with ⟨hek, hv⟩ | ⟨hmem, hek⟩
        · have hu2 : driftUpdateOf env v0 d = some (some e.2) := by rw [hu, hv]
          have hst := driftUpdateOf_stable hu2
          exact ⟨Or.inr hst.2, by rw [hst.1, hmedhd, hek]⟩
        · refine hE e hmem ?_
          rw [List.map_cons]
          intro hmem2
          rcases List.mem_cons.mp hmem2 with h2 | h2
          · exact hek h2
          · exact hkeys h2
      · rw [hbdm]
        exact alNodup_alUpdate hnd

/-- A drift pass over a key-distinct record map of step fixpoints keyed by
their media links leaves the record map exactly as it was. -/
theorem driftLoop_fix (env : Env) (v0 : List VMDataDisk) :
    ∀ (L : AList DiskRecord) (acc : LoopAcc),
      (List.map Prod.fst L).Nodup →
      (∀ e ∈ L, e.2.media_link = e.1) →
      (∀ e ∈ L, driftFix env v0 e.2) →
      (∀ e ∈ L, List.find? (fun x => x.uri == e.2.media_link) acc.vm_disks
        = List.find? (fun x => x.uri == e.2.media_link) v0) →
      (∀ e ∈ L, alFind acc.bdm e.1 = some e.2) →
      alNodup acc.bdm →
      (driftLoop env L acc).bdm = acc.bdm := by
  intro L
  induction L with
  | nil =>
    intro acc _ _ _ _ _ _
    rfl
  | cons hd tl ih =>
    intro acc hndL hmedL hFixL hfind hlook hnd
    obtain ⟨k, d⟩ := hd
    rw [List.map_cons, List.nodup_cons] at hndL
    obtain ⟨hknotin, hndtl⟩ := hndL
    replace hknotin : k ∉ List.map Prod.fst tl := hknotin
    have hmedhd : d.media_link = k := hmedL (k, d) (List.mem_cons_self _ _)
    have hcongr : driftUpdateOf env acc.vm_disks d = driftUpdateOf env v0 d :=
      driftUpdateOf_congr (hfind (k, d) (List.mem_cons_self _ _))
    have hbdm := driftEntry_bdm env acc k d
    have hvm := driftEntry_vm env acc k d
    rw [hcongr] at hbdm
    have hstep : driftLoop env ((k, d) :: tl) acc
        = driftLoop env tl (driftEntry env acc k d) := rfl
    rw [hstep]
    have hF := hFixL (k, d) (List.mem_cons_self _ _)
    unfold driftFix at hF
    dsimp only at hF
    have hsame : (driftEntry env acc k d).bdm = acc.bdm := by
      rcases hF with hu | hu
      · rw [hu] at hbdm
        dsimp only at hbdm
        exact hbdm
      · rw [hu] at hbdm
        dsimp only at hbdm
        rw [hbdm]
        exact alSet_self hnd (hlook (k, d) (List.mem_cons_self _ _))
    have hmed' : ∀ e ∈ tl, e.2.media_link = e.1 :=
      fun e he => hmedL e (List.mem_cons_of_mem _ he)
    have hfind' : ∀ e ∈ tl,
        List.find? (fun x => x.uri == e.2.media_link)
          (driftEntry env acc k d).vm_disks
        = List.find? (fun x => x.uri == e.2.media_link) v0 := by
      intro e he
      rw [hvm]
      have hne : d.media_link ≠ e.2.media_link := by
        rw [hmedhd, hmed' e he]
        intro hk
        exact hknotin (by rw [hk]; exact List.mem_map_of_mem Prod.fst he)
      rw [driftVMOf_find_ne hne]
      exact hfind e (List.mem_cons_of_mem _ he)
    have hres := ih (driftEntry env acc k d) hndtl hmed'
      (fun e he => hFixL e (List.mem_cons_of_mem _ he)) hfind'
      (fun e he => by rw [hsame]; exact hlook e (List.mem_cons_of_mem _ he))
      (by rw [hsame]; exact hnd)
    rw [hres, hsame]

/-- A successful drift run locates an attached root disk record and its new
record map is the result of the per-disk loop seeded with the write-back of
that root record. -/
theorem driftCheck_bdm {env : Env} {vm : VMSnapshot} {s : AzureState}
    {o : DriftOut} (h : driftCheck env vm s = .ok o) :
    ∃ rid root w,
      find_root_disk s.block_device_mapping = some rid
      ∧ alFind s.block_device_mapping rid = some root
      ∧ o.state.block_device_mapping =
          (driftLoop env (alUpdate s.block_device_mapping rid (some root))
            ⟨alUpdate s.block_device_mapping rid (some root),
             vm.data_disks, [], w⟩).bdm := by
  unfold driftCheck at h
  cases hr1 : find_root_disk s.block_device_mapping with
  | none =>
    rw [hr1] at h
    dsimp only at h
    exact Except.noConfusion h
  | some rid =>
    rw [hr1] at h
    dsimp only at h
    cases hr2 : alFind s.block_device_mapping rid with
    | none =>
      rw [hr2] at h
      dsimp only at h
      exact Except.noConfusion h
    | some root =>
      rw [hr2] at h
      dsimp only at h
      have h2 := Except.ok.inj h
      exact ⟨rid, root, _, rfl, hr2, by rw [← h2]⟩

/-- C4, corrected.  The drift detector is idempotent on the record disk
map: when the recorded map has distinct keys and keys every disk by its
media link (the invariant the backend maintains), a second run against the
same snapshot leaves the record disk map of the first run unchanged.  The
warning part of the claim is refuted by claim4_counterexample: warnings
about non-auto-fixable divergences are repeated verbatim on the second
run. -/
theorem claim4_amended (env : Env) (vm : VMSnapshot) (s0 : AzureState)
    (o1 o2 : DriftOut)
    (hnd : alNodup s0.block_device_mapping)
    (hmed : ∀ e ∈ s0.block_device_mapping, e.2.media_link = e.1)
    (h1 : driftCheck env vm s0 = .ok o1)
    (h2 : driftCheck env vm o1.state = .ok o2) :
    o2.state.block_device_mapping = o1.state.block_device_mapping := by
  obtain ⟨rid, root, w, hr1, hr2, ho1⟩ := driftCheck_bdm h1
  have hset : alUpdate s0.block_device_mapping rid (some root)
      = s0.block_device_mapping := alSet_self hnd hr2
  rw [hset] at ho1
  have hinv := driftLoop_inv env vm.data_disks s0.block_device_mapping
    ⟨s0.block_device_mapping, vm.data_disks, [], w⟩ hnd hmed
    (fun e he => rfl) (fun e he hk => he)
    (fun e he hk => absurd (List.mem_map_of_mem Prod.fst he) hk) hnd
  have hFix1 : ∀ e ∈ o1.state.block_device_mapping,
      driftFix env vm.data_disks e.2 ∧ e.2.media_link = e.1 := by
    intro e he
    rw [ho1] at he
    exact hinv.1 e he
  have hnd1 : alNodup o1.state.block_device_mapping := by
    rw [ho1]
    exact hinv.2
  obtain ⟨rid2, root2, w2, hq1, hq2, ho2⟩ := driftCheck_bdm h2
  have hset2 : alUpdate o1.state.block_device_mapping rid2 (some root2)
      = o1.state.block_device_mapping := alSet_self hnd1 hq2
  rw [hset2] at ho2
  have hrun2 := driftLoop_fix env vm.data_disks o1.state.block_device_mapping
    ⟨o1.state.block_device_mapping, vm.data_disks, [], w2⟩ hnd1
    (fun e he => (hFix1 e he).2) (fun e he => (hFix1 e he).1)
    (fun e he => rfl)
    (fun e he => alFind_eq_of_mem hnd1 he) hnd1
  rw [ho2, hrun2]

/-- C4 counterexample: with a root disk whose recorded name diverges from
the live one (a divergence the detector does not fix), the second run
repeats the name warning, even though the record disk map is stable. -/
theorem claim4_counterexample :
    driftCheck exEnv c4VM c4State = .ok c4Out1
    ∧ driftCheck exEnv c4VM c4Out1.state = .ok c4Out2
    ∧ c4Out2.state.block_device_mapping = c4Out1.state.block_device_mapping
    ∧ c4Out2.warnings = [Warning.fieldChanged exRootId "name"] := by
  refine ⟨by decide, by decide, by decide, by decide⟩

/-- C4 witness: two consecutive drift runs on the deployed example machine
against the same snapshot produce the same record disk map. -/
theorem claim4_witness :
    c4wOut2.state.block_device_mapping = c4wOut1.state.block_device_mapping :=
  claim4_amended exEnv exVM exState c4wOut1 c4wOut2
    (by unfold alNodup; decide) (by decide) (by decide) (by decide)

end AzureVM
